import Mathlib

/-
  Shallow embedding of the texture-atlas manager of the
  AscendingCreations/AscendingLibraries graphics crate:

    src/graphics/src/atlas_set.rs          (AtlasSet and its operations)
    src/graphics/src/atlas_set/atlas.rs    (Atlas layer)
    src/graphics/src/atlas_set/migration.rs (MigrationTask, migrate_reallocate)
    src/graphics/src/atlas/allocator.rs    (Allocator wrapper)

  The generic parameters are monomorphised: the key type `U` to `Nat`, the
  payload type `Data` to `Int`.  GPU-only effects (texture creation, byte
  upload, texture-to-texture copies, bind groups) touch no state tracked
  here; `upload` reports its texture write as an explicit event list and
  `grow` is the identity on the tracked state.  The containers of the
  external crates (slab::Slab, lru::LruCache, AHashMap, AHashSet,
  AIndexSet, guillotiere) are embedded by executable list models of the
  operations the atlas code uses.
-/

/-- A rectangle inside one texture layer (guillotiere rectangle, expressed
as origin plus extent; all coordinates are non-negative in every use made
by this crate). -/
structure Rect where
  x : Nat
  y : Nat
  width : Nat
  height : Nat
deriving DecidableEq

/-- guillotiere::Allocation: an allocation id plus the allotted rectangle. -/
structure GAlloc where
  id : Nat
  rectangle : Rect
deriving DecidableEq

/-- Modelled from the spec: the guillotiere::AtlasAllocator is an external
crate; spec section 4.1 describes it as first-fit free-rectangle-splitting
(guillotine) packing over one fixed-size layer.  State: the layer size, the
current free rectangles, and a fresh-id counter. -/
structure Guillotiere where
  size : Nat
  free : List Rect
  next_id : Nat
deriving DecidableEq

/-- Modelled from the spec: allocate(w, h) finds the first free rectangle
that fits, emits the requested sub-rectangle at its origin and re-inserts
the right and bottom remainders as new free rectangles; returns none when
no free rectangle is large enough. -/
def Guillotiere.allocate (g : Guillotiere) (w h : Nat) :
    Option (GAlloc × Guillotiere) :=
  match g.free.findIdx? (fun r => decide (w ≤ r.width) && decide (h ≤ r.height)) with
  | none => none
  | some i =>
    match g.free[i]? with
    | none => none
    | some r =>
      let rest := g.free.eraseIdx i
      let right : Rect := ⟨r.x + w, r.y, r.width - w, h⟩
      let below : Rect := ⟨r.x, r.y + h, r.width, r.height - h⟩
      let rest := if right.width = 0 then rest else rest ++ [right]
      let rest := if below.height = 0 then rest else rest ++ [below]
      some (⟨g.next_id, ⟨r.x, r.y, w, h⟩⟩, ⟨g.size, rest, g.next_id + 1⟩)

/-- Modelled from the spec: deallocate returns the rectangle to the free
pool (section 4.1 allows but does not require merging; this model keeps
the returned rectangle as its own free entry). -/
def Guillotiere.deallocate (g : Guillotiere) (r : Rect) : Guillotiere :=
  { g with free := g.free ++ [r] }

/-- Modelled from the spec: clear resets to a single full-layer free
rectangle. -/
def Guillotiere.clear (g : Guillotiere) : Guillotiere :=
  ⟨g.size, [⟨0, 0, g.size, g.size⟩], 0⟩

/-- Modelled from the spec: a fresh allocator has the whole layer free. -/
def Guillotiere.new (size : Nat) : Guillotiere :=
  ⟨size, [⟨0, 0, size, size⟩], 0⟩

/-- usize saturating addition (Rust usize is 64-bit here). -/
def usizeSatAdd (a b : Nat) : Nat :=
  min (a + b) (2 ^ 64 - 1)

/-- Allocator (src/graphics/src/atlas/allocator.rs): wraps the guillotiere
allocator of one layer and counts live allocations and deallocations. -/
structure Allocator where
  allocator : Guillotiere
  allocations : Nat
  deallocations : Nat
deriving DecidableEq

/-- Allocator::allocate: forwards to guillotiere and bumps the allocation
count on success; the allocator is unchanged on failure. -/
def Allocator.allocate (al : Allocator) (width height : Nat) :
    Option (GAlloc × Allocator) :=
  match al.allocator.allocate width height with
  | none => none
  | some (g, inner) => some (g, ⟨inner, al.allocations + 1, al.deallocations⟩)

/-- Allocator::clear: clears the packer and zeroes both counters. -/
def Allocator.clear (al : Allocator) : Allocator :=
  ⟨al.allocator.clear, 0, 0⟩

/-- Allocator::deallocate: returns the rectangle, saturating-decrements the
allocation count and saturating-increments the deallocation count. -/
def Allocator.deallocate (al : Allocator) (a : GAlloc) : Allocator :=
  ⟨al.allocator.deallocate a.rectangle, al.allocations - 1,
   usizeSatAdd al.deallocations 1⟩

/-- Allocator::new. -/
def Allocator.new (size : Nat) : Allocator :=
  ⟨Guillotiere.new size, 0, 0⟩

/-- Modelled from the spec: the Allocation record of
src/graphics/src/atlas_set/allocation.rs is not among the sources; spec
section 3 gives a Region as a rectangle within a layer plus an opaque
payload and the owning layer index, and the remaining sources use exactly
the fields allocation (guillotiere allocation), layer and data. -/
structure Allocation where
  allocation : GAlloc
  layer : Nat
  data : Int
deriving DecidableEq

/-- Modelled from the spec: Allocation::position() is the packed
rectangle's origin. -/
def Allocation.position (a : Allocation) : Nat × Nat :=
  (a.allocation.rectangle.x, a.allocation.rectangle.y)

/-- Modelled from the spec: Allocation::size() is the packed rectangle's
extent. -/
def Allocation.dims (a : Allocation) : Nat × Nat :=
  (a.allocation.rectangle.width, a.allocation.rectangle.height)

/-- AIndexSet insert: insertion-ordered set, appends when absent. -/
def listInsertSet (l : List Nat) (x : Nat) : List Nat :=
  if x ∈ l then l else l ++ [x]

/-- AIndexSet swap_remove: replaces the removed element by the last one and
pops the tail, as indexmap's swap_remove does. -/
def listSwapRemove (l : List Nat) (x : Nat) : List Nat :=
  match l.findIdx? (fun y => y == x) with
  | none => l
  | some i =>
    match l.getLast? with
    | none => l
    | some last => (l.set i last).dropLast

/-- Atlas (src/graphics/src/atlas_set/atlas.rs): one texture layer with its
allocator, the set of handle ids packed into it, and the migrating lock. -/
structure Atlas where
  allocator : Allocator
  allocated : List Nat
  migrating : Bool
deriving DecidableEq

/-- Atlas::new. -/
def Atlas.new (size : Nat) : Atlas :=
  ⟨Allocator.new size, [], false⟩

/-- Atlas::insert_index. -/
def Atlas.insert_index (a : Atlas) (index : Nat) : Atlas :=
  { a with allocated := listInsertSet a.allocated index }

/-- Atlas::clear: clears allocator and tracking set and unsets migrating. -/
def Atlas.clear (a : Atlas) : Atlas :=
  ⟨a.allocator.clear, [], false⟩

/-- Atlas::deallocate: drops the index from the tracking set and returns
the rectangle to the allocator. -/
def Atlas.deallocate (a : Atlas) (index : Nat) (g : GAlloc) : Atlas :=
  { a with allocated := listSwapRemove a.allocated index,
           allocator := a.allocator.deallocate g }

/-- Atlas::start_migration. -/
def Atlas.start_migration (a : Atlas) : Atlas :=
  { a with migrating := true }

/-- slab::Slab entry: occupied, or vacant with the next free-list link. -/
inductive SlabEntry (α : Type) where
  | occupied (val : α)
  | vacant (next_free : Nat)
deriving DecidableEq

/-- slab::Slab: dense entry array plus the head of the vacant free list. -/
structure Slab (α : Type) where
  entries : List (SlabEntry α)
  next : Nat
deriving DecidableEq

/-- Slab::get. -/
def Slab.get {α : Type} (s : Slab α) (i : Nat) : Option α :=
  match s.entries[i]? with
  | some (SlabEntry.occupied a) => some a
  | _ => none

/-- Slab::insert: reuses the head of the free list when one exists,
otherwise pushes at the end; returns the slot index. -/
def Slab.insert {α : Type} (s : Slab α) (a : α) : Nat × Slab α :=
  match s.entries[s.next]? with
  | some (SlabEntry.vacant nf) =>
    (s.next, ⟨s.entries.set s.next (SlabEntry.occupied a), nf⟩)
  | some (SlabEntry.occupied _) =>
    -- a corrupt free list would make Rust slab panic; unreachable
    (s.entries.length, ⟨s.entries ++ [SlabEntry.occupied a], s.entries.length + 1⟩)
  | none =>
    (s.entries.length, ⟨s.entries ++ [SlabEntry.occupied a], s.entries.length + 1⟩)

/-- Slab::remove: vacates the slot and links it into the free list.  Rust
slab panics on a vacant or out-of-range index; the model returns none and
leaves the slab unchanged there (unreachable for live handles). -/
def Slab.remove {α : Type} (s : Slab α) (i : Nat) : Option α × Slab α :=
  match s.entries[i]? with
  | some (SlabEntry.occupied a) =>
    (some a, ⟨s.entries.set i (SlabEntry.vacant s.next), i⟩)
  | _ => (none, s)

/-- Slab::get_mut followed by an in-place overwrite, as the defragment
store loop performs it. -/
def Slab.update {α : Type} (s : Slab α) (i : Nat) (f : α → α) : Slab α :=
  match s.entries[i]? with
  | some (SlabEntry.occupied a) => ⟨s.entries.set i (SlabEntry.occupied (f a)), s.next⟩
  | _ => s

/-- Slab::clear. -/
def Slab.clearAll {α : Type} (_s : Slab α) : Slab α :=
  ⟨[], 0⟩

/-- lru::LruCache over (handle id, refcount), unbounded; the list head is
the most recently used end, the tail the least recently used end. -/
abbrev Lru := List (Nat × Nat)

/-- LruCache::push: inserts or updates the value and moves the entry to the
most-recently-used position. -/
def lruPush (c : Lru) (k v : Nat) : Lru :=
  (k, v) :: c.filter (fun p => p.1 != k)

/-- LruCache::pop: removes the entry and returns its value. -/
def lruPop (c : Lru) (k : Nat) : Option (Nat × Lru) :=
  match c.find? (fun p => p.1 == k) with
  | none => none
  | some p => some (p.2, c.filter (fun q => q.1 != k))

/-- LruCache::promote: moves an existing entry to the most-recently-used
position without changing its value; no-op when absent. -/
def lruPromote (c : Lru) (k : Nat) : Lru :=
  match c.find? (fun p => p.1 == k) with
  | none => c
  | some p => (p.1, p.2) :: c.filter (fun q => q.1 != k)

/-- LruCache::peek_lru: the least-recently-used entry, without reordering. -/
def lruPeekLru (c : Lru) : Option (Nat × Nat) :=
  c.getLast?

/-- Peek a cached refcount without touching recency (used only to state
theorems). -/
def lruGet (c : Lru) (k : Nat) : Option Nat :=
  (c.find? (fun p => p.1 == k)).map (fun p => p.2)

/-- AHashMap from key to handle id, as an association list. -/
abbrev KeyMap := List (Nat × Nat)

/-- HashMap::get. -/
def mapGet (m : KeyMap) (k : Nat) : Option Nat :=
  (m.find? (fun p => p.1 == k)).map (fun p => p.2)

/-- HashMap::insert. -/
def mapInsert (m : KeyMap) (k v : Nat) : KeyMap :=
  (k, v) :: m.filter (fun p => p.1 != k)

/-- HashMap::remove. -/
def mapRemove (m : KeyMap) (k : Nat) : KeyMap :=
  m.filter (fun p => p.1 != k)

/-- GraphicsError kinds reached by the atlas code. -/
inductive GraphicsError where
  | AtlasMaxLayers
  | DefragFailed
deriving DecidableEq

/-- MigrationTask (src/graphics/src/atlas_set/migration.rs): layer ids
still to be drained and layer ids available as relocation targets (the
source spells the field avaliable). -/
structure MigrationTask where
  migrating : List Nat
  avaliable : List Nat
deriving DecidableEq

/-- One queue.write_texture call issued by upload_allocation. -/
structure WriteEvent where
  x : Nat
  y : Nat
  layer : Nat
  width : Nat
  height : Nat
  bytes : List Nat
deriving DecidableEq

/-- AtlasSet (src/graphics/src/atlas_set.rs) restricted to the state the
CPU-side logic reads or writes; the wgpu texture, format and bind group
live only on the GPU side. -/
structure AtlasSet where
  layers : List Atlas
  size : Nat
  store : Slab (Allocation × Nat)
  lookup : KeyMap
  cache : Lru
  last_used : List Nat
  max_layers : Nat
  deallocations_limit : Nat
  layer_check_limit : Nat
  layer_free_limit : Nat
  use_ref_count : Bool
  migration : Option MigrationTask
deriving DecidableEq

/-- AtlasSet::new after the size clamp; gl tells whether the backend is GL,
which starts with two layers instead of one.  layer_check_limit is
(max_layers * 0.8) truncated, written in exact arithmetic. -/
def AtlasSet.init (size max_layers : Nat) (use_ref_count gl : Bool) : AtlasSet :=
  { layers := if gl then [Atlas.new size, Atlas.new size] else [Atlas.new size]
    size := size
    store := ⟨[], 0⟩
    lookup := []
    cache := []
    last_used := []
    max_layers := max_layers
    deallocations_limit := 32
    layer_check_limit := max_layers * 4 / 5
    layer_free_limit := 3
    use_ref_count := use_ref_count
    migration := none }

/-- AtlasSet::trim: clears the per-frame last_used guard. -/
def AtlasSet.trim (s : AtlasSet) : AtlasSet :=
  { s with last_used := [] }

/-- AtlasSet::promote. -/
def AtlasSet.promote (s : AtlasSet) (id : Nat) : AtlasSet :=
  { s with cache := lruPromote s.cache id,
           last_used := listInsertSet s.last_used id }

/-- AtlasSet::promote_by_key. -/
def AtlasSet.promote_by_key (s : AtlasSet) (key : Nat) : AtlasSet :=
  match mapGet s.lookup key with
  | none => s
  | some id => { s with cache := lruPromote s.cache id,
                        last_used := listInsertSet s.last_used id }

/-- AtlasSet::get: returns the stored allocation, promoting recency and
inserting into last_used on a hit. -/
def AtlasSet.get (s : AtlasSet) (id : Nat) : Option Allocation × AtlasSet :=
  match s.store.get id with
  | some (allocation, _) =>
    (some allocation,
     { s with cache := lruPromote s.cache id,
              last_used := listInsertSet s.last_used id })
  | none => (none, s)

/-- AtlasSet::get_by_key. -/
def AtlasSet.get_by_key (s : AtlasSet) (key : Nat) : Option Allocation × AtlasSet :=
  match mapGet s.lookup key with
  | none => (none, s)
  | some id =>
    match s.store.get id with
    | some (allocation, _) =>
      (some allocation,
       { s with cache := lruPromote s.cache id,
                last_used := listInsertSet s.last_used id })
    | none => (none, s)

/-- AtlasSet::remove: pops the cache refcount; in ref-count mode a still
positive count is pushed back and nothing is removed.  Otherwise the slot,
last_used and lookup entries are erased and the rectangle is returned to
the owning layer (Rust slab would panic on a vacant slot; the model
returns none there with the cache pop already applied, mirroring the
mutation order of the source). -/
def AtlasSet.remove (s : AtlasSet) (id : Nat) : Option Nat × AtlasSet :=
  match lruPop s.cache id with
  | none => (none, s)
  | some (v, cache1) =>
    let refcount := v - 1
    if s.use_ref_count && decide (refcount > 0) then
      (none, { s with cache := lruPush cache1 id refcount })
    else
      match s.store.remove id with
      | (none, _) => (none, { s with cache := cache1 })
      | (some (allocation, key), store1) =>
        let s1 := { s with
                    cache := cache1
                    store := store1
                    last_used := s.last_used.filter (fun j => j != id)
                    lookup := mapRemove s.lookup key }
        match s1.layers[allocation.layer]? with
        | none => (none, s1)
        | some layer =>
          (some allocation.layer,
           { s1 with layers :=
               s1.layers.set allocation.layer (layer.deallocate id allocation.allocation) })

/-- AtlasSet::remove_by_key: as remove, but the key drives the lookup and
the lookup erasure uses the key argument itself. -/
def AtlasSet.remove_by_key (s : AtlasSet) (key : Nat) : Option Nat × AtlasSet :=
  match mapGet s.lookup key with
  | none => (none, s)
  | some id =>
    match lruPop s.cache id with
    | none => (none, s)
    | some (v, cache1) =>
      let refcount := v - 1
      if s.use_ref_count && decide (refcount > 0) then
        (none, { s with cache := lruPush cache1 id refcount })
      else
        match s.store.remove id with
        | (none, _) => (none, { s with cache := cache1 })
        | (some (allocation, _), store1) =>
          let s1 := { s with
                      cache := cache1
                      store := store1
                      last_used := s.last_used.filter (fun j => j != id)
                      lookup := mapRemove s.lookup key }
          match s1.layers[allocation.layer]? with
          | none => (none, s1)
          | some layer =>
            (some allocation.layer,
             { s1 with layers :=
                 s1.layers.set allocation.layer (layer.deallocate id allocation.allocation) })

/-- List write with a function, total: out-of-range indices leave the list
unchanged (used where the source indexes self.layers[i] on indices it has
just produced). -/
def listModify {α : Type} (l : List α) (i : Nat) (f : α → α) : List α :=
  match l[i]? with
  | none => l
  | some a => l.set i (f a)

/-- Scan of the existing layers inside AtlasSet::allocate: first
non-migrating layer whose allocator accepts the rectangle wins; returns
the guillotiere allocation, the layer index and the updated layer list. -/
def scanLayers (w h : Nat) : List Atlas → Option (GAlloc × Nat × List Atlas)
  | [] => none
  | layer :: rest =>
    if layer.migrating then
      match scanLayers w h rest with
      | none => none
      | some (g, i, rest1) => some (g, i + 1, layer :: rest1)
    else
      match layer.allocator.allocate w h with
      | some (g, al1) => some (g, 0, { layer with allocator := al1 } :: rest)
      | none =>
        match scanLayers w h rest with
        | none => none
        | some (g, i, rest1) => some (g, i + 1, layer :: rest1)

/-- Outcome of the opportunistic eviction loop inside AtlasSet::allocate:
either the whole allocate call returns (ret), or the loop breaks to the
add-a-layer path (brk). -/
inductive EvictOut where
  | ret (r : Option Allocation) (s : AtlasSet)
  | brk (s : AtlasSet)

/-- The eviction loop of AtlasSet::allocate, fuelled (the source loop pops
one cache entry per iteration, so cache length plus one suffices):
peek the least-recently-used entry (an empty cache makes allocate return
none through the ? operator); stop when that entry is in last_used;
otherwise remove it and retry the allocation in the freed layer. -/
def evictLoop (w h : Nat) (d : Int) : Nat → AtlasSet → EvictOut
  | 0, s => EvictOut.ret none s
  | fuel + 1, s =>
    match lruPeekLru s.cache with
    | none => EvictOut.ret none s
    | some (id, _) =>
      if id ∈ s.last_used then EvictOut.brk s
      else
        match s.remove id with
        | (some layer_id, s1) =>
          match s1.layers[layer_id]? with
          | none => EvictOut.ret none s1
          | some layer =>
            match layer.allocator.allocate w h with
            | some (g, al1) =>
              EvictOut.ret (some ⟨g, layer_id, d⟩)
                { s1 with layers := s1.layers.set layer_id { layer with allocator := al1 } }
            | none => evictLoop w h d fuel s1
        | (none, s1) => evictLoop w h d fuel s1

/-- AtlasSet::allocate: size check, layer scan, opportunistic eviction
(skipped in ref-count mode), then the add-a-new-layer path guarded by
`layers.len() + 1 == max_layers` exactly as the source writes it. -/
def AtlasSet.allocate (s : AtlasSet) (width height : Nat) (data : Int) :
    Option Allocation × AtlasSet :=
  if width > s.size ∨ height > s.size then (none, s)
  else
    match scanLayers width height s.layers with
    | some (g, i, layers1) => (some ⟨g, i, data⟩, { s with layers := layers1 })
    | none =>
      let afterEvict : EvictOut :=
        if s.use_ref_count then EvictOut.brk s
        else evictLoop width height data (s.cache.length + 1) s
      match afterEvict with
      | EvictOut.ret r s1 => (r, s1)
      | EvictOut.brk s1 =>
        if s1.layers.length + 1 = s1.max_layers then (none, s1)
        else
          let layer := Atlas.new s1.size
          match layer.allocator.allocate width height with
          | some (g, al1) =>
            let layers1 := s1.layers ++ [{ layer with allocator := al1 }]
            let s2 := { s1 with layers := layers1 }
            let s3 :=
              match s2.migration with
              | some m =>
                let m1 := { m with avaliable := m.avaliable ++ [layers1.length - 1] }
                { s2 with migration := some m1 }
              | none => s2
            (some ⟨g, layers1.length - 1, data⟩, s3)
          | none => (none, s1)

/-- AtlasSet::grow only recreates the GPU texture array and bind group; it
touches none of the state tracked by this embedding. -/
def AtlasSet.grow (s : AtlasSet) (_amount : Nat) : AtlasSet :=
  s

/-- AtlasSet::upload: a lookup hit returns the existing id untouched and
issues no texture write; a miss allocates, grows the texture, writes the
bytes (reported as the returned event list) and registers the slot,
tracking-set, lookup and cache entries with refcount one. -/
def AtlasSet.upload (s : AtlasSet) (key : Nat) (bytes : List Nat)
    (width height : Nat) (data : Int) :
    Option Nat × AtlasSet × List WriteEvent :=
  match mapGet s.lookup key with
  | some id => (some id, s, [])
  | none =>
    match s.allocate width height data with
    | (none, s1) => (none, s1, [])
    | (some allocation, s1) =>
      let s2 := s1.grow (s1.layers.length - s.layers.length)
      let ev : WriteEvent :=
        ⟨allocation.position.1, allocation.position.2, allocation.layer,
         allocation.dims.1, allocation.dims.2, bytes⟩
      let (id, store1) := s2.store.insert (allocation, key)
      let s3 := { s2 with
                  store := store1
                  layers := listModify s2.layers allocation.layer (fun l => l.insert_index id)
                  lookup := mapInsert s2.lookup key id
                  cache := lruPush s2.cache id 1 }
      (some id, s3, [ev])

/-- AtlasSet::set_alloc: as upload but without a texture write, with the
width and height floored at one; a lookup hit additionally reads the slot
(a missing slot makes the hit return none with no change). -/
def AtlasSet.set_alloc (s : AtlasSet) (key : Nat) (width height : Nat) (data : Int) :
    Option (Nat × Allocation) × AtlasSet :=
  let width := max width 1
  let height := max height 1
  match mapGet s.lookup key with
  | some id =>
    match s.store.get id with
    | some (allocation, _) => (some (id, allocation), s)
    | none => (none, s)
  | none =>
    match s.allocate width height data with
    | (none, s1) => (none, s1)
    | (some allocation, s1) =>
      let s2 := s1.grow (s1.layers.length - s.layers.length)
      let (id, store1) := s2.store.insert (allocation, key)
      let s3 := { s2 with
                  store := store1
                  layers := listModify s2.layers allocation.layer (fun l => l.insert_index id)
                  lookup := mapInsert s2.lookup key id
                  cache := lruPush s2.cache id 1 }
      (some (id, allocation), s3)

/-- AtlasSet::clear: clears each layer's allocator (the tracking sets and
migrating flags are left as they are, exactly as the source does), and
empties the store, lookup, cache and last_used. -/
def AtlasSet.clearAll (s : AtlasSet) : AtlasSet :=
  { s with
    layers := s.layers.map (fun l => { l with allocator := l.allocator.clear })
    store := s.store.clearAll
    lookup := []
    cache := []
    last_used := [] }

/-- AtlasSet::add_empty_layer (migration.rs): guarded by the same
`layers.len() + 1 == max_layers` check as allocate; on success pushes a
fresh layer and records its index in the task's avaliable list. -/
def AtlasSet.add_empty_layer (s : AtlasSet) (task : MigrationTask) :
    Except GraphicsError (Nat × AtlasSet × MigrationTask) :=
  if s.layers.length + 1 = s.max_layers then Except.error GraphicsError.AtlasMaxLayers
  else
    let layers1 := s.layers ++ [Atlas.new s.size]
    Except.ok (layers1.length - 1, { s with layers := layers1 },
      { task with avaliable := task.avaliable ++ [layers1.length - 1] })

/-- The `for layer_id in &task.avaliable` placement attempt inside
migrate_reallocate: first avaliable layer that accepts the rectangle. -/
def tryAvaliable (w h : Nat) (s : AtlasSet) : List Nat → Option (GAlloc × Nat × AtlasSet)
  | [] => none
  | layer_id :: rest =>
    match s.layers[layer_id]? with
    | none => tryAvaliable w h s rest
    | some layer =>
      match layer.allocator.allocate w h with
      | some (g, al1) =>
        some (g, layer_id,
          { s with layers := s.layers.set layer_id { layer with allocator := al1 } })
      | none => tryAvaliable w h s rest

/-- The labelled 'outer relocation loop of migrate_reallocate: place each
gathered handle into an avaliable layer, else into a freshly added layer,
else fail with DefragFailed. -/
def migrateLoop : List (Nat × Allocation) → AtlasSet → MigrationTask →
    List (Nat × Allocation) →
    Except GraphicsError (List (Nat × Allocation)) × AtlasSet × MigrationTask
  | [], s, task, migrated => (Except.ok migrated, s, task)
  | (id, allocation) :: rest, s, task, migrated =>
    let w := allocation.allocation.rectangle.width
    let h := allocation.allocation.rectangle.height
    match tryAvaliable w h s task.avaliable with
    | some (g, layer_id, s1) =>
      migrateLoop rest s1 task (migrated ++ [(id, ⟨g, layer_id, allocation.data⟩)])
    | none =>
      match s.add_empty_layer task with
      | Except.error e => (Except.error e, s, task)
      | Except.ok (layer_id, s1, task1) =>
        match s1.layers[layer_id]? with
        | some layer =>
          match layer.allocator.allocate w h with
          | some (g, al1) =>
            migrateLoop rest
              { s1 with layers := s1.layers.set layer_id { layer with allocator := al1 } }
              task1 (migrated ++ [(id, ⟨g, layer_id, allocation.data⟩)])
          | none => (Except.error GraphicsError.DefragFailed, s1, task1)
        | none => (Except.error GraphicsError.DefragFailed, s1, task1)

/-- The tail of AtlasSet::migrate_reallocate after the avaliable-layer
guarantee: pop one layer id from the task's migrating list (its absence
is the DefragFailed branch of the `.pop().ok_or(...)?`), gather that
layer's live handles, relocate them, then append the drained layer to
avaliable and clear it.  The gather of the drained layer's live handles
(`for alloc_id in layer.allocated.clone()` with a peek of each) is split
out as gatherLayer. -/
def gatherLayer (s : AtlasSet) (migrating_layer_id : Nat) :
    List (Nat × Allocation) :=
  match s.layers[migrating_layer_id]? with
  | some layer =>
    layer.allocated.filterMap (fun aid => (s.store.get aid).map (fun pr => (aid, pr.1)))
  | none => []

def migratePopAndDrain (s : AtlasSet) (task : MigrationTask) :
    Except GraphicsError (List (Nat × Allocation)) × AtlasSet × MigrationTask :=
  match task.migrating.getLast? with
  | none => (Except.error GraphicsError.DefragFailed, s, task)
  | some migrating_layer_id =>
    let task := { task with migrating := task.migrating.dropLast }
    match migrateLoop (gatherLayer s migrating_layer_id) s task [] with
    | (Except.error e, s1, task1) => (Except.error e, s1, task1)
    | (Except.ok migrated, s1, task1) =>
      let task2 := { task1 with avaliable := task1.avaliable ++ [migrating_layer_id] }
      match s1.layers[migrating_layer_id]? with
      | none => (Except.error GraphicsError.DefragFailed, s1, task2)
      | some layer =>
        (Except.ok migrated,
         { s1 with layers := s1.layers.set migrating_layer_id layer.clear }, task2)

/-- AtlasSet::migrate_reallocate: ensure at least one avaliable layer (the
`if task.avaliable.is_empty()` guard adding an empty layer), then pop and
drain one migrating layer. -/
def AtlasSet.migrate_reallocate (s : AtlasSet) (task : MigrationTask) :
    Except GraphicsError (List (Nat × Allocation)) × AtlasSet × MigrationTask :=
  if task.avaliable.isEmpty then
    match s.add_empty_layer task with
    | Except.error e => (Except.error e, s, task)
    | Except.ok (_, s1, task1) => migratePopAndDrain s1 task1
  else migratePopAndDrain s task

/-- The per-handle store rewrite loop of AtlasSet::defragment: look the
handle up (missing handle is DefragFailed), issue the GPU copy (no tracked
state), overwrite the stored allocation in place keeping the key, and
register the handle in its new layer's tracking set. -/
def defragStoreLoop : List (Nat × Allocation) → AtlasSet →
    Except GraphicsError Unit × AtlasSet
  | [], s => (Except.ok (), s)
  | (id, allocation) :: rest, s =>
    match s.store.get id with
    | none => (Except.error GraphicsError.DefragFailed, s)
    | some _ =>
      let store1 := s.store.update id (fun pr => (allocation, pr.2))
      let s1 := { s with
                  store := store1
                  layers := listModify s.layers allocation.layer (fun l => l.insert_index id) }
      defragStoreLoop rest s1

/-- The dead partition loop at the bottom of AtlasSet::defragment (never
reached, see defragment): queue layers at or past the deallocation limit
and mark them migrating, collect the rest as avaliable. -/
def partitionLayers (limit : Nat) : List Atlas → Nat → MigrationTask × List Atlas
  | [], _ => (⟨[], []⟩, [])
  | layer :: rest, i =>
    let (task, rest1) := partitionLayers limit rest (i + 1)
    if layer.allocator.deallocations ≥ limit then
      ({ task with migrating := i :: task.migrating },
       { layer with migrating := true } :: rest1)
    else
      ({ task with avaliable := i :: task.avaliable }, layer :: rest1)

/-- AtlasSet::defragment.  With a stored task: take it, relocate one
layer's handles via migrate_reallocate, rewrite the store entries, and
re-store the task only when its migrating list is still non-empty,
returning Ok(true).  Without a task the source writes
`let _ = self.layers.iter().inspect(|layer| ... total += 1 ...)`:
the Inspect iterator is built and immediately dropped without being
consumed, so the closure never runs, total stays zero and the function
returns Ok(false) before the partition loop, which is therefore dead
code (kept below the early return to mirror the source). -/
def AtlasSet.defragment (s : AtlasSet) : Except GraphicsError Bool × AtlasSet :=
  match s.migration with
  | some task =>
    let s0 := { s with migration := none }
    match s0.migrate_reallocate task with
    | (Except.error e, s1, _task1) => (Except.error e, s1)
    | (Except.ok migrate, s1, task1) =>
      match defragStoreLoop migrate s1 with
      | (Except.error e, s2) => (Except.error e, s2)
      | (Except.ok _, s2) =>
        if task1.migrating.isEmpty then (Except.ok true, s2)
        else (Except.ok true, { s2 with migration := some task1 })
  | none =>
    let total : Nat := 0
    if total = 0 then (Except.ok false, s)
    else
      let (task, layers1) := partitionLayers s.deallocations_limit s.layers 0
      let s1 := { s with layers := layers1 }
      if task.migrating.isEmpty then (Except.ok false, s1)
      else (Except.ok false, { s1 with migration := some task })

/-- Fixture: one layer whose allocator has reached the default
deallocation limit of 32, no migration task. -/
def fraggedAtlas : AtlasSet :=
  { AtlasSet.init 256 10 false false with
    layers := [{ Atlas.new 256 with allocator := { Allocator.new 256 with deallocations := 32 } }] }

/-- Fixture: a completely full 256-sized layer (no free rectangles). -/
def fullLayer : Atlas :=
  { Atlas.new 256 with allocator := ⟨⟨256, [], 1⟩, 1, 0⟩ }

/-- Fixture: ref-count-mode atlas with one full layer and max_layers two. -/
def refFullAtlas : AtlasSet :=
  { AtlasSet.init 256 2 true false with layers := [fullLayer] }

/-- Fixture: ref-count-mode atlas already holding max_layers = 2 layers. -/
def twoLayerAtlas : AtlasSet :=
  { AtlasSet.init 256 2 true false with layers := [Atlas.new 256, Atlas.new 256] }

/-- Fixture: a 64 by 64 allocation at the origin of a layer. -/
def sampleGAlloc : GAlloc :=
  ⟨0, ⟨0, 0, 64, 64⟩⟩

/-- Fixture: a migrating layer holding handle 0 in a 64 by 64 corner. -/
def migratingLayer : Atlas :=
  { allocator := ⟨⟨256, [⟨64, 0, 192, 256⟩], 1⟩, 1, 32⟩
    allocated := [0]
    migrating := true }

/-- Fixture: an atlas mid-defragmentation: layer 0 queued for draining
with one live handle (key 7, slot 0), layer 1 avaliable and empty. -/
def drainAtlas : AtlasSet :=
  { AtlasSet.init 256 10 false false with
    layers := [migratingLayer, Atlas.new 256]
    store := ⟨[SlabEntry.occupied (⟨sampleGAlloc, 0, 0⟩, 7)], 1⟩
    lookup := [(7, 0)]
    cache := [(0, 1)]
    migration := some ⟨[0], [1]⟩ }

/-- State carried by an eviction-loop outcome. -/
def EvictOut.state : EvictOut → AtlasSet
  | EvictOut.ret _ s => s
  | EvictOut.brk s => s

/-- Fold of a sequence of internal allocate calls (width, height, data). -/
def allocSeq (reqs : List (Nat × Nat × Int)) (s : AtlasSet) : AtlasSet :=
  reqs.foldl (fun st r => (st.allocate r.1 r.2.1 r.2.2).2) s

/-- Invariant: every live handle's stored layer index is below the layer
count. -/
def LayerBound (s : AtlasSet) : Prop :=
  ∀ id a k, s.store.get id = some (a, k) → a.layer < s.layers.length

/-- Invariant: a stored migration task has a non-empty migrating list. -/
def TaskNonempty (s : AtlasSet) : Prop :=
  ∀ t, s.migration = some t → t.migrating ≠ []

/-- One public operation of the AtlasSet API, as a step relation between
the state before and the state after the call. -/
inductive Step : AtlasSet → AtlasSet → Prop where
  | upload (s : AtlasSet) (key : Nat) (bytes : List Nat) (w h : Nat) (d : Int) :
      Step s (s.upload key bytes w h d).2.1
  | set_alloc (s : AtlasSet) (key w h : Nat) (d : Int) :
      Step s (s.set_alloc key w h d).2
  | get (s : AtlasSet) (id : Nat) : Step s (s.get id).2
  | get_by_key (s : AtlasSet) (key : Nat) : Step s (s.get_by_key key).2
  | remove (s : AtlasSet) (id : Nat) : Step s (s.remove id).2
  | remove_by_key (s : AtlasSet) (key : Nat) : Step s (s.remove_by_key key).2
  | promote (s : AtlasSet) (id : Nat) : Step s (s.promote id)
  | promote_by_key (s : AtlasSet) (key : Nat) : Step s (s.promote_by_key key)
  | trim (s : AtlasSet) : Step s s.trim
  | clear (s : AtlasSet) : Step s s.clearAll
  | defragment (s : AtlasSet) : Step s (s.defragment).2

/-- Fixture: fresh ref-count atlas (glyph-style). -/
def refAtlas : AtlasSet :=
  AtlasSet.init 256 10 true false

/-- Fixture: refAtlas after uploading key 7 as a 64 by 64 glyph. -/
def refAtlasUploaded : AtlasSet :=
  (refAtlas.upload 7 [] 64 64 0).2.1

/-- Fixture: the allocation registered for key 7 in refAtlasUploaded. -/
def glyphAllocation : Allocation :=
  ⟨⟨0, ⟨0, 0, 64, 64⟩⟩, 0, 0⟩

/-- Fixture: layer 0 of refAtlasUploaded. -/
def glyphLayer : Atlas :=
  { allocator := ⟨⟨256, [⟨64, 0, 192, 64⟩, ⟨0, 64, 256, 192⟩], 1⟩, 1, 0⟩
    allocated := [0]
    migrating := false }

/-
  General lemmas about the container models.
-/

theorem find?_filter_key_none (m : List (Nat × Nat)) (k : Nat) :
    (m.filter (fun p => p.1 != k)).find? (fun p => p.1 == k) = none := by
  induction m with
  | nil => rfl
  | cons a m ih =>
    by_cases hk : a.1 = k
    · simp [List.filter_cons, hk, ih]
    · simp [List.filter_cons, hk, List.find?, ih]

theorem find?_key_eq (l : List (Nat × Nat)) (p : Nat × Nat) (k : Nat)
    (h : l.find? (fun q => q.1 == k) = some p) : p.1 = k := by
  induction l with
  | nil => simp [List.find?] at h
  | cons a t ih =>
    rw [List.find?] at h
    cases hf : (a.1 == k) with
    | true =>
      rw [hf] at h
      simp at h
      rw [← h]
      simpa using hf
    | false =>
      rw [hf] at h
      simp at h
      exact ih h

theorem find?_filter_key_other (m : List (Nat × Nat)) (k k1 : Nat) (h : k ≠ k1) :
    (m.filter (fun p => p.1 != k1)).find? (fun p => p.1 == k) =
      m.find? (fun p => p.1 == k) := by
  induction m with
  | nil => rfl
  | cons a m ih =>
    by_cases hk : a.1 = k1
    · have hf : (k1 == k) = false := beq_eq_false_iff_ne.mpr (Ne.symm h)
      simp [List.filter_cons, hk, List.find?, hf, ih]
    · by_cases hk2 : a.1 = k
      · simp [List.filter_cons, hk, List.find?, hk2, h]
      · have hf2 : (a.1 == k) = false := beq_eq_false_iff_ne.mpr hk2
        simp [List.filter_cons, hk, List.find?, hf2, ih]

theorem mapGet_mapInsert_self (m : KeyMap) (k v : Nat) :
    mapGet (mapInsert m k v) k = some v := by
  simp [mapGet, mapInsert, List.find?]

theorem mapGet_mapRemove_self (m : KeyMap) (k : Nat) :
    mapGet (mapRemove m k) k = none := by
  simp [mapGet, mapRemove, find?_filter_key_none]

theorem mapGet_mapRemove_of_none (m : KeyMap) (k k1 : Nat)
    (h : mapGet m k = none) : mapGet (mapRemove m k1) k = none := by
  by_cases hk : k = k1
  · subst hk; exact mapGet_mapRemove_self m k
  · simpa [mapGet, mapRemove, find?_filter_key_other m k k1 hk] using h

theorem lruGet_lruPromote (c : Lru) (k j : Nat) :
    lruGet (lruPromote c k) j = lruGet c j := by
  unfold lruPromote
  cases hfind : c.find? (fun p => p.1 == k) with
  | none => rfl
  | some p =>
    have hpk : p.1 = k := find?_key_eq c p k hfind
    by_cases hj : j = k
    · subst hj
      simp [lruGet, List.find?, hpk, hfind]
    · have hne : j ≠ k := hj
      simp only [lruGet, List.find?]
      have : (p.1 == j) = false := by
        simp [hpk]
        exact fun hc => hne hc.symm
      rw [this]
      simp only [cond_false]
      rw [find?_filter_key_other c j k hne]

theorem lruGet_lruPop_self (c : Lru) (k : Nat) (v : Nat) (c1 : Lru)
    (h : lruPop c k = some (v, c1)) : lruGet c1 k = none := by
  unfold lruPop at h
  cases hfind : c.find? (fun p => p.1 == k) with
  | none => rw [hfind] at h; exact absurd h (by simp)
  | some p =>
    rw [hfind] at h
    have hc1 : c1 = c.filter (fun q => q.1 != k) := by
      have := congrArg (fun x => (Option.map Prod.snd x)) h
      simpa using this.symm
    rw [hc1]
    simp [lruGet, find?_filter_key_none]

theorem lruGet_lruPush_self (c : Lru) (k v : Nat) :
    lruGet (lruPush c k v) k = some v := by
  simp [lruGet, lruPush, List.find?]

theorem Slab.get_remove_self {α : Type} (s : Slab α) (i : Nat) (a : α)
    (h : s.get i = some a) : ((s.remove i).2).get i = none := by
  unfold Slab.get at h
  cases hget : s.entries[i]? with
  | none => rw [hget] at h; exact absurd h (by simp)
  | some e =>
    cases e with
    | vacant nf => rw [hget] at h; exact absurd h (by simp)
    | occupied b =>
      have hlt : i < s.entries.length := by
        have := List.getElem?_eq_some.mp hget
        exact this.1
      simp [Slab.remove, hget, Slab.get, List.getElem?_set_eq_of_lt _ hlt]

theorem Slab.get_remove_ne {α : Type} (s : Slab α) (i j : Nat) (h : j ≠ i) :
    ((s.remove i).2).get j = s.get j := by
  unfold Slab.remove
  cases hget : s.entries[i]? with
  | none => rfl
  | some e =>
    cases e with
    | vacant nf => rfl
    | occupied b =>
      simp [Slab.get, List.getElem?_set_ne (Ne.symm h)]

theorem Slab.get_update_ne {α : Type} (s : Slab α) (i j : Nat) (f : α → α) (h : j ≠ i) :
    (s.update i f).get j = s.get j := by
  unfold Slab.update
  cases hget : s.entries[i]? with
  | none => rfl
  | some e =>
    cases e with
    | vacant nf => rfl
    | occupied b =>
      simp [Slab.get, List.getElem?_set_ne (Ne.symm h)]

theorem Slab.get_update_eq {α : Type} (s : Slab α) (i : Nat) (f : α → α) (a : α)
    (h : s.get i = some a) : (s.update i f).get i = some (f a) := by
  unfold Slab.get at h
  cases hget : s.entries[i]? with
  | none => rw [hget] at h; exact absurd h (by simp)
  | some e =>
    cases e with
    | vacant nf => rw [hget] at h; exact absurd h (by simp)
    | occupied b =>
      rw [hget] at h
      have hb : b = a := by simpa using h
      subst hb
      have hlt : i < s.entries.length := (List.getElem?_eq_some.mp hget).1
      simp [Slab.update, hget, Slab.get, List.getElem?_set_eq_of_lt _ hlt]

theorem Slab.get_update_none {α : Type} (s : Slab α) (i : Nat) (f : α → α)
    (h : s.get i = none) : (s.update i f).get i = none := by
  unfold Slab.get at h
  unfold Slab.update
  cases hget : s.entries[i]? with
  | none => simp [hget, Slab.get]
  | some e =>
    cases e with
    | vacant nf => simp [hget, Slab.get]
    | occupied b => rw [hget] at h; exact absurd h (by simp)

theorem Slab.get_insert_self {α : Type} (s : Slab α) (a : α) :
    ((s.insert a).2).get (s.insert a).1 = some a := by
  unfold Slab.insert
  cases hget : s.entries[s.next]? with
  | none =>
    simp [Slab.get, List.getElem?_concat_length _ _]
  | some e =>
    cases e with
    | vacant nf =>
      have hlt : s.next < s.entries.length := (List.getElem?_eq_some.mp hget).1
      simp [Slab.get, List.getElem?_set_eq_of_lt _ hlt]
    | occupied b =>
      simp [Slab.get, List.getElem?_concat_length _ _]

theorem Slab.get_insert_ne {α : Type} (s : Slab α) (a : α) (j : Nat)
    (h : j ≠ (s.insert a).1) : ((s.insert a).2).get j = s.get j := by
  unfold Slab.insert at h ⊢
  cases hget : s.entries[s.next]? with
  | none =>
    rw [hget] at h
    simp only at h
    by_cases hj : j < s.entries.length
    · simp [Slab.get, List.getElem?_append, hj]
    · have hgt : s.entries.length < j := by omega
      have h1 : s.entries[j]? = none := List.getElem?_eq_none (by omega)
      have h2 : (s.entries ++ [SlabEntry.occupied a])[j]? = none := by
        apply List.getElem?_eq_none
        simp
        omega
      simp [Slab.get, h1, h2]
  | some e =>
    cases e with
    | vacant nf =>
      rw [hget] at h
      simp only at h
      simp [Slab.get, List.getElem?_set_ne (Ne.symm h)]
    | occupied b =>
      rw [hget] at h
      simp only at h
      by_cases hj : j < s.entries.length
      · simp [Slab.get, List.getElem?_append, hj]
      · have h1 : s.entries[j]? = none := List.getElem?_eq_none (by omega)
        have h2 : (s.entries ++ [SlabEntry.occupied a])[j]? = none := by
          apply List.getElem?_eq_none
          simp
          omega
        simp [Slab.get, h1, h2]

/-- C1: the claim states that a defragment call with no active migration
task and at least one layer at or past the deallocation limit marks those
layers migrating, queues them into a task's migrating list, fills the
task's available list with the rest, stores the task and returns
Ok(false).  The code never does any of this: the qualifying-layer total is
accumulated inside a closure handed to a lazy Inspect iterator that is
dropped unconsumed, so the total stays zero and the call returns Ok(false)
with the state untouched.  Evaluated at a one-layer state exactly at the
default limit: no task is created, the layer is not marked. -/
theorem defragment_idle_creates_no_task :
    (fraggedAtlas.layers[0]?).map (fun l => l.allocator.deallocations) = some 32 ∧
    fraggedAtlas.deallocations_limit = 32 ∧
    fraggedAtlas.migration = none ∧
    AtlasSet.defragment fraggedAtlas = (Except.ok false, fraggedAtlas) ∧
    (AtlasSet.defragment fraggedAtlas).2.migration = none ∧
    (AtlasSet.defragment fraggedAtlas).2.layers.all (fun l => !l.migrating) = true :=
  ⟨rfl, rfl, rfl, rfl, rfl, rfl⟩

/-- C2: the claim states that when no existing non-migrating layer fits,
the eviction loop yields nothing (here: ref-count mode, where the source
skips it), and the layer count is strictly below max_layers, allocate
creates a new layer and returns an allocation in it.  At one full layer
with max_layers two — strictly below the cap — a 64 by 64 request within
bounds returns none and appends no layer, because the source guards the
new layer with `layers.len() + 1 == max_layers`.  (The non-ref-count
empty-cache case fails for a second reason: `self.cache.peek_lru()?`
propagates None out of allocate instead of falling through to the
new-layer path.) -/
theorem allocate_below_cap_returns_none :
    refFullAtlas.use_ref_count = true ∧
    64 ≤ refFullAtlas.size ∧
    scanLayers 64 64 refFullAtlas.layers = none ∧
    refFullAtlas.layers.length < refFullAtlas.max_layers ∧
    (refFullAtlas.allocate 64 64 0).1 = none ∧
    (refFullAtlas.allocate 64 64 0).2.layers.length = refFullAtlas.layers.length :=
  ⟨rfl, by decide, rfl, by decide, rfl, rfl⟩

/-- C4: the claim states that layer creation fails with AtlasMaxLayers
exactly when the layer count equals max_layers, so the atlas can hold
max_layers layers.  The source check `layers.len() + 1 == max_layers`
fails one layer early and, worse, does not fail at the cap itself: with
max_layers = 2 the call errors at one layer (1 < 2) and succeeds at two
layers (2 = max_layers), pushing a third. -/
theorem add_empty_layer_cap_off_by_one :
    refFullAtlas.layers.length = 1 ∧
    refFullAtlas.max_layers = 2 ∧
    refFullAtlas.add_empty_layer ⟨[], []⟩ = Except.error GraphicsError.AtlasMaxLayers ∧
    twoLayerAtlas.layers.length = 2 ∧
    twoLayerAtlas.max_layers = 2 ∧
    (twoLayerAtlas.add_empty_layer ⟨[], []⟩).isOk = true :=
  ⟨rfl, rfl, rfl, rfl, rfl, rfl⟩

/-- C8: uploading a key already present in the lookup returns exactly the
id stored there with the state unchanged and no texture write issued; and
(second conjunct) a successful first upload of a missing key registers the
returned id in the lookup, so the hit returns the identical handle the
first upload produced. -/
theorem upload_cache_hit_idempotent :
    (∀ (s : AtlasSet) (key id : Nat) (bytes : List Nat) (width height : Nat) (data : Int),
        mapGet s.lookup key = some id →
        s.upload key bytes width height data = (some id, s, [])) ∧
    (∀ (s : AtlasSet) (key : Nat) (bytes : List Nat) (width height : Nat) (data : Int)
        (id : Nat) (s1 : AtlasSet) (evs : List WriteEvent),
        s.upload key bytes width height data = (some id, s1, evs) →
        mapGet s.lookup key = none →
        mapGet s1.lookup key = some id) := by
  constructor
  · intro s key id bytes width height data h
    unfold AtlasSet.upload
    rw [h]
  · intro s key bytes width height data id s1 evs h hmiss
    unfold AtlasSet.upload at h
    rw [hmiss] at h
    cases halloc : s.allocate width height data with
    | mk r s2 =>
      rw [halloc] at h
      cases r with
      | none => simp at h
      | some allocation =>
        simp only [AtlasSet.grow, Prod.mk.injEq] at h
        obtain ⟨hid, hs1, -⟩ := h
        rw [← hs1]
        have hid2 : (s2.store.insert (allocation, key)).1 = id := by
          exact Option.some.inj hid
        simp only [mapGet_mapInsert_self, hid2]

/-- Witness for C8 at concrete inputs: a hit on key 5 in a state whose
lookup maps 5 to 0, and a first upload of key 5 into a fresh atlas. -/
theorem upload_cache_hit_idempotent_witness :
    ({ AtlasSet.init 256 10 true false with lookup := [(5, 0)] } : AtlasSet).upload 5 [] 4 4 0 =
      (some 0, ({ AtlasSet.init 256 10 true false with lookup := [(5, 0)] } : AtlasSet), []) ∧
    mapGet (((AtlasSet.init 256 10 true false).upload 5 [] 4 4 0).2.1.lookup) 5 = some 0 :=
  ⟨upload_cache_hit_idempotent.1 _ 5 0 [] 4 4 0 rfl,
   upload_cache_hit_idempotent.2 (AtlasSet.init 256 10 true false) 5 [] 4 4 0 0 _ _ rfl rfl⟩

theorem mem_listInsertSet (l : List Nat) (x j : Nat) :
    j ∈ listInsertSet l x ↔ j ∈ l ∨ j = x := by
  unfold listInsertSet
  by_cases hx : x ∈ l
  · simp only [if_pos hx]
    constructor
    · exact Or.inl
    · rintro (h | rfl)
      · exact h
      · exact hx
  · simp [if_neg hx]

theorem lruPop_eq_of_get (c : Lru) (k v : Nat) (h : lruGet c k = some v) :
    lruPop c k = some (v, c.filter (fun q => q.1 != k)) := by
  unfold lruGet at h
  unfold lruPop
  cases hfind : c.find? (fun p => p.1 == k) with
  | none => rw [hfind] at h; exact absurd h (by simp)
  | some p =>
    rw [hfind] at h
    have hv : p.2 = v := by simpa using h
    show some (p.2, c.filter (fun q => q.1 != k)) = some (v, c.filter (fun q => q.1 != k))
    rw [hv]

theorem Slab.lt_length_of_get {α : Type} (s : Slab α) (i : Nat) (a : α)
    (h : s.get i = some a) : i < s.entries.length := by
  unfold Slab.get at h
  cases hget : s.entries[i]? with
  | none => rw [hget] at h; exact absurd h (by simp)
  | some e => exact (List.getElem?_eq_some.mp hget).1

theorem Slab.remove_eq_of_get {α : Type} (s : Slab α) (i : Nat) (a : α)
    (h : s.get i = some a) :
    s.remove i = (some a, ⟨s.entries.set i (SlabEntry.vacant s.next), i⟩) := by
  unfold Slab.get at h
  unfold Slab.remove
  cases hget : s.entries[i]? with
  | none => rw [hget] at h; exact absurd h (by simp)
  | some e =>
    cases e with
    | vacant nf => rw [hget] at h; exact absurd h (by simp)
    | occupied b =>
      rw [hget] at h
      have hb : b = a := by simpa using h
      subst hb
      rfl

theorem Slab.get_set_vacant {α : Type} (entries : List (SlabEntry α)) (i nxt n : Nat)
    (hlt : i < entries.length) :
    (Slab.mk (entries.set i (SlabEntry.vacant nxt)) n).get i = none := by
  simp [Slab.get, List.getElem?_set_eq_of_lt _ hlt]

theorem upload_registers_refcount_one (s : AtlasSet) (key : Nat) (bytes : List Nat)
    (width height : Nat) (data : Int) (id : Nat) (s1 : AtlasSet) (evs : List WriteEvent)
    (hmiss : mapGet s.lookup key = none)
    (h : s.upload key bytes width height data = (some id, s1, evs)) :
    lruGet s1.cache id = some 1 := by
  unfold AtlasSet.upload at h
  rw [hmiss] at h
  cases halloc : s.allocate width height data with
  | mk r s2 =>
    rw [halloc] at h
    cases r with
    | none => simp at h
    | some allocation =>
      simp only [AtlasSet.grow, Prod.mk.injEq] at h
      obtain ⟨hid, hs1, -⟩ := h
      rw [← hs1]
      have hid2 : (s2.store.insert (allocation, key)).1 = id := Option.some.inj hid
      simp only [hid2, lruGet_lruPush_self]

theorem get_by_key_touches_only_recency (s : AtlasSet) (key : Nat) :
    (s.get_by_key key).2.store = s.store ∧
    (s.get_by_key key).2.lookup = s.lookup ∧
    (s.get_by_key key).2.layers = s.layers ∧
    (s.get_by_key key).2.migration = s.migration ∧
    (∀ j, lruGet (s.get_by_key key).2.cache j = lruGet s.cache j) ∧
    (∀ j, j ∈ (s.get_by_key key).2.last_used →
      j ∈ s.last_used ∨ mapGet s.lookup key = some j) := by
  unfold AtlasSet.get_by_key
  split
  · exact ⟨rfl, rfl, rfl, rfl, fun j => rfl, fun j hj => Or.inl hj⟩
  · rename_i id hlook
    split
    · rename_i alloc k0 hget
      refine ⟨rfl, rfl, rfl, rfl, fun j => lruGet_lruPromote s.cache id j, fun j hj => ?_⟩
      rcases (mem_listInsertSet s.last_used id j).mp hj with h | h
      · exact Or.inl h
      · right
        rw [h]
        exact hlook
    · exact ⟨rfl, rfl, rfl, rfl, fun j => rfl, fun j hj => Or.inl hj⟩

theorem remove_by_key_refcount_one (s : AtlasSet) (key id : Nat) (a : Allocation)
    (k0 : Nat) (l0 : Atlas)
    (hlook : mapGet s.lookup key = some id)
    (hv : lruGet s.cache id = some 1)
    (ha : s.store.get id = some (a, k0))
    (hl : s.layers[a.layer]? = some l0) :
    (s.remove_by_key key).1 = some a.layer ∧
    mapGet (s.remove_by_key key).2.lookup key = none ∧
    (s.remove_by_key key).2.store.get id = none ∧
    lruGet (s.remove_by_key key).2.cache id = none ∧
    (s.remove_by_key key).2.layers[a.layer]? =
      some (l0.deallocate id a.allocation) := by
  have hpop := lruPop_eq_of_get s.cache id 1 hv
  have hrem := Slab.remove_eq_of_get s.store id (a, k0) ha
  have hlen := Slab.lt_length_of_get s.store id (a, k0) ha
  have hlt : a.layer < s.layers.length := by
    by_contra hc
    rw [List.getElem?_eq_none (by omega)] at hl
    exact absurd hl (by simp)
  have hcond : (s.use_ref_count && decide ((1 : Nat) - 1 > 0)) = false := by
    simp
  unfold AtlasSet.remove_by_key
  simp only [hlook]
  simp only [hpop]
  simp only [hcond, Bool.false_eq_true, if_false]
  simp only [hrem]
  simp only [hl]
  refine ⟨trivial, mapGet_mapRemove_self s.lookup key, ?_, ?_, ?_⟩
  · exact Slab.get_set_vacant s.store.entries id s.store.next id hlen
  · simp [lruGet, find?_filter_key_none]
  · simp [List.getElem?_set_eq_of_lt _ hlt]

theorem remove_by_key_absent (s : AtlasSet) (key : Nat)
    (h : mapGet s.lookup key = none) : s.remove_by_key key = (none, s) := by
  unfold AtlasSet.remove_by_key
  rw [h]

/-- C3: in ref-count mode, uploading a new key registers it with refcount
one; any get_by_key changes only LRU recency and last_used membership
(store, lookup, layers, migration and every cached refcount value are
unchanged, and last_used gains at most the key's own handle); a
remove_by_key of a key whose handle holds refcount one erases the lookup,
slot and cache entries, frees the rectangle into the owning layer and
returns that layer's index; and a remove_by_key of an absent key returns
none and changes nothing (hence a second remove of the same key does). -/
theorem ref_count_upload_get_remove_lifecycle :
    (∀ (s : AtlasSet) (key : Nat) (bytes : List Nat) (width height : Nat) (data : Int)
        (id : Nat) (s1 : AtlasSet) (evs : List WriteEvent),
        s.use_ref_count = true →
        mapGet s.lookup key = none →
        s.upload key bytes width height data = (some id, s1, evs) →
        lruGet s1.cache id = some 1) ∧
    (∀ (s : AtlasSet) (key : Nat),
        s.use_ref_count = true →
        (s.get_by_key key).2.store = s.store ∧
        (s.get_by_key key).2.lookup = s.lookup ∧
        (s.get_by_key key).2.layers = s.layers ∧
        (∀ j, lruGet (s.get_by_key key).2.cache j = lruGet s.cache j) ∧
        (∀ j, j ∈ (s.get_by_key key).2.last_used →
          j ∈ s.last_used ∨ mapGet s.lookup key = some j)) ∧
    (∀ (s : AtlasSet) (key id : Nat) (a : Allocation) (k0 : Nat) (l0 : Atlas),
        s.use_ref_count = true →
        mapGet s.lookup key = some id →
        lruGet s.cache id = some 1 →
        s.store.get id = some (a, k0) →
        s.layers[a.layer]? = some l0 →
        (s.remove_by_key key).1 = some a.layer ∧
        mapGet (s.remove_by_key key).2.lookup key = none ∧
        (s.remove_by_key key).2.store.get id = none ∧
        lruGet (s.remove_by_key key).2.cache id = none ∧
        (s.remove_by_key key).2.layers[a.layer]? =
          some (l0.deallocate id a.allocation)) ∧
    (∀ (s : AtlasSet) (key : Nat),
        mapGet s.lookup key = none → s.remove_by_key key = (none, s)) := by
  refine ⟨?_, ?_, ?_, ?_⟩
  · intro s key bytes width height data id s1 evs _ hmiss h
    exact upload_registers_refcount_one s key bytes width height data id s1 evs hmiss h
  · intro s key _
    have h := get_by_key_touches_only_recency s key
    exact ⟨h.1, h.2.1, h.2.2.1, h.2.2.2.2.1, h.2.2.2.2.2⟩
  · intro s key id a k0 l0 _ hlook hv ha hl
    exact remove_by_key_refcount_one s key id a k0 l0 hlook hv ha hl
  · intro s key h
    exact remove_by_key_absent s key h

/-- Witness for C3 on a fresh ref-count atlas with glyph key 7: the upload
registers refcount one, get_by_key leaves the store untouched, the first
remove_by_key returns layer 0 and erases the lookup entry, and a second
remove_by_key of the now-absent key is the identity returning none. -/
theorem ref_count_upload_get_remove_lifecycle_witness :
    lruGet refAtlasUploaded.cache 0 = some 1 ∧
    (refAtlasUploaded.get_by_key 7).2.store = refAtlasUploaded.store ∧
    (refAtlasUploaded.remove_by_key 7).1 = some 0 ∧
    mapGet (refAtlasUploaded.remove_by_key 7).2.lookup 7 = none ∧
    ((refAtlasUploaded.remove_by_key 7).2).remove_by_key 7 =
      (none, (refAtlasUploaded.remove_by_key 7).2) := by
  refine ⟨?_, ?_, ?_, ?_, ?_⟩
  · exact ref_count_upload_get_remove_lifecycle.1 refAtlas 7 [] 64 64 0 0
      refAtlasUploaded [⟨0, 0, 0, 64, 64, []⟩] rfl rfl rfl
  · exact (ref_count_upload_get_remove_lifecycle.2.1 refAtlasUploaded 7 rfl).1
  · exact (ref_count_upload_get_remove_lifecycle.2.2.1 refAtlasUploaded 7 0
      glyphAllocation 7 glyphLayer rfl rfl rfl rfl rfl).1
  · exact (ref_count_upload_get_remove_lifecycle.2.2.1 refAtlasUploaded 7 0
      glyphAllocation 7 glyphLayer rfl rfl rfl rfl rfl).2.1
  · exact ref_count_upload_get_remove_lifecycle.2.2.2
      ((refAtlasUploaded.remove_by_key 7).2) 7 rfl

theorem Slab.get_of_remove_some {α : Type} (s : Slab α) (i : Nat) (a : α) (st : Slab α)
    (h : s.remove i = (some a, st)) : s.get i = some a ∧ st.get i = none := by
  unfold Slab.remove at h
  cases hget : s.entries[i]? with
  | none =>
    rw [hget] at h
    exact absurd (congrArg Prod.fst h) (by simp)
  | some e =>
    cases e with
    | vacant nf =>
      rw [hget] at h
      exact absurd (congrArg Prod.fst h) (by simp)
    | occupied b =>
      rw [hget] at h
      simp only [Prod.mk.injEq] at h
      obtain ⟨hb, hst⟩ := h
      have hb2 : b = a := Option.some.inj hb
      subst hb2
      have hlt : i < s.entries.length := (List.getElem?_eq_some.mp hget).1
      constructor
      · simp [Slab.get, hget]
      · rw [← hst]
        exact Slab.get_set_vacant s.entries i s.next i hlt

theorem remove_frame (s : AtlasSet) (id0 : Nat) :
    (s.remove id0).2.layers.length = s.layers.length ∧
    (s.remove id0).2.size = s.size ∧
    (s.remove id0).2.max_layers = s.max_layers ∧
    (s.remove id0).2.use_ref_count = s.use_ref_count ∧
    (s.remove id0).2.migration = s.migration ∧
    (∀ j, j ≠ id0 → (s.remove id0).2.store.get j = s.store.get j) ∧
    (∀ j x, (s.remove id0).2.store.get j = some x → s.store.get j = some x) ∧
    (∀ j, j ≠ id0 → ((j ∈ (s.remove id0).2.last_used) ↔ j ∈ s.last_used)) ∧
    ((s.remove id0).2.lookup = s.lookup ∨
      ∃ k0, (s.remove id0).2.lookup = mapRemove s.lookup k0) := by
  unfold AtlasSet.remove
  split
  · exact ⟨rfl, rfl, rfl, rfl, rfl, fun j _ => rfl, fun j x hx => hx,
      fun j _ => Iff.rfl, Or.inl rfl⟩
  · rename_i v cache1 hpop
    dsimp only
    split
    · exact ⟨rfl, rfl, rfl, rfl, rfl, fun j _ => rfl, fun j x hx => hx,
        fun j _ => Iff.rfl, Or.inl rfl⟩
    · split
      · rename_i hrm
        exact ⟨rfl, rfl, rfl, rfl, rfl, fun j _ => rfl, fun j x hx => hx,
          fun j _ => Iff.rfl, Or.inl rfl⟩
      · rename_i allocation key store1 hrm
        have hget := Slab.get_of_remove_some s.store id0 (allocation, key) store1 hrm
        have hne : ∀ j, j ≠ id0 → store1.get j = s.store.get j := by
          intro j hj
          have h1 := Slab.get_remove_ne s.store id0 j hj
          rw [hrm] at h1
          exact h1
        have hmono : ∀ j x, store1.get j = some x → s.store.get j = some x := by
          intro j x hx
          by_cases hj : j = id0
          · subst hj
            rw [hget.2] at hx
            exact absurd hx (by simp)
          · rw [← hne j hj]
            exact hx
        have hmem : ∀ j, j ≠ id0 →
            ((j ∈ s.last_used.filter (fun x => x != id0)) ↔ j ∈ s.last_used) := by
          intro j hj
          rw [List.mem_filter]
          constructor
          · exact fun hx => hx.1
          · intro hx
            exact ⟨hx, by simpa using hj⟩
        split
        · exact ⟨rfl, rfl, rfl, rfl, rfl, fun j hj => hne j hj, hmono,
            fun j hj => hmem j hj, Or.inr ⟨key, rfl⟩⟩
        · rename_i layer hlay
          refine ⟨?_, rfl, rfl, rfl, rfl, fun j hj => hne j hj, hmono,
            fun j hj => hmem j hj, Or.inr ⟨key, rfl⟩⟩
          simp

theorem remove_some_layer_lt (s : AtlasSet) (id0 : Nat) (L : Nat)
    (h : (s.remove id0).1 = some L) : L < (s.remove id0).2.layers.length := by
  unfold AtlasSet.remove at h ⊢
  split at h
  · exact absurd h (by simp)
  · rename_i v cache1 hpop
    dsimp only at h ⊢
    split at h
    · exact absurd h (by simp)
    · rename_i hcond
      split at h
      · exact absurd h (by simp)
      · rename_i allocation key store1 hrm
        split at h
        · exact absurd h (by simp)
        · rename_i layer hlay
          have hL : allocation.layer = L := by simpa using h
          have hlt : allocation.layer < s.layers.length :=
            (List.getElem?_eq_some.mp hlay).1
          rw [if_neg hcond]
          simpa [← hL] using hlt

theorem evictLoop_frame (w hh : Nat) (d : Int) :
    ∀ (fuel : Nat) (s : AtlasSet),
    ((evictLoop w hh d fuel s).state.layers.length = s.layers.length) ∧
    ((evictLoop w hh d fuel s).state.size = s.size) ∧
    ((evictLoop w hh d fuel s).state.max_layers = s.max_layers) ∧
    ((evictLoop w hh d fuel s).state.use_ref_count = s.use_ref_count) ∧
    ((evictLoop w hh d fuel s).state.migration = s.migration) ∧
    (∀ j x, (evictLoop w hh d fuel s).state.store.get j = some x →
       s.store.get j = some x) ∧
    (∀ j, j ∈ s.last_used → j ∈ (evictLoop w hh d fuel s).state.last_used ∧
       (evictLoop w hh d fuel s).state.store.get j = s.store.get j) ∧
    (∀ k0, mapGet s.lookup k0 = none →
       mapGet (evictLoop w hh d fuel s).state.lookup k0 = none) ∧
    (∀ r s1, evictLoop w hh d fuel s = EvictOut.ret (some r) s1 →
       r.layer < s1.layers.length) := by
  intro fuel
  induction fuel with
  | zero =>
    intro s
    exact ⟨rfl, rfl, rfl, rfl, rfl, fun j x hx => hx, fun j hj => ⟨hj, rfl⟩,
      fun k0 h1 => h1, fun r s1 hr => by simp [evictLoop] at hr⟩
  | succ fuel ih =>
    intro s
    unfold evictLoop
    split
    · exact ⟨rfl, rfl, rfl, rfl, rfl, fun j x hx => hx, fun j hj => ⟨hj, rfl⟩,
        fun k0 h1 => h1, fun r s1 hr => by injection hr with h1 h2; simp at h1⟩
    · rename_i id v hpeek
      split
      · exact ⟨rfl, rfl, rfl, rfl, rfl, fun j x hx => hx, fun j hj => ⟨hj, rfl⟩,
          fun k0 h1 => h1, fun r s1 hr => by injection hr⟩
      · rename_i hnotmem
        have hrf := remove_frame s id
        split
        · rename_i layer_id s1 heq
          simp only [heq] at hrf
          obtain ⟨hlen, hsz, hml, hrc, hmig, hsne, hsmono, hlu, hlk⟩ := hrf
          have hlkp : ∀ k0, mapGet s.lookup k0 = none → mapGet s1.lookup k0 = none := by
            intro k0 h1
            rcases hlk with hsame | ⟨kk, hrm⟩
            · rw [hsame]; exact h1
            · rw [hrm]; exact mapGet_mapRemove_of_none s.lookup k0 kk h1
          have hluj : ∀ j, j ∈ s.last_used → j ∈ s1.last_used ∧
              s1.store.get j = s.store.get j := by
            intro j hj
            have hne : j ≠ id := fun hh2 => hnotmem (hh2 ▸ hj)
            exact ⟨(hlu j hne).mpr hj, hsne j hne⟩
          split
          · exact ⟨hlen, hsz, hml, hrc, hmig, hsmono, hluj, hlkp,
              fun r s2 hr => by injection hr with h1 h2; simp at h1⟩
          · rename_i layer hlay
            split
            · rename_i g al1 hal
              have hlt : layer_id < s1.layers.length := (List.getElem?_eq_some.mp hlay).1
              refine ⟨by simp only [EvictOut.state]; simpa using hlen, hsz, hml, hrc,
                hmig, hsmono, hluj, hlkp, ?_⟩
              intro r s2 hr
              injection hr with h1 h2
              have hr2 : r = ⟨g, layer_id, d⟩ := (Option.some.inj h1).symm
              rw [← h2, hr2]
              simpa using hlt
            · rename_i hal
              obtain ⟨ilen, isz, iml, irc, imig, ismono, ilu, ilk, iret⟩ := ih s1
              refine ⟨by rw [ilen, hlen], by rw [isz, hsz], by rw [iml, hml],
                by rw [irc, hrc], by rw [imig, hmig],
                fun j x hx => hsmono j x (ismono j x hx), ?_, ?_, iret⟩
              · intro j hj
                obtain ⟨hj1, hj2⟩ := hluj j hj
                obtain ⟨hj3, hj4⟩ := ilu j hj1
                exact ⟨hj3, by rw [hj4, hj2]⟩
              · intro k0 h1
                exact ilk k0 (hlkp k0 h1)
        · rename_i s1 heq
          simp only [heq] at hrf
          obtain ⟨hlen, hsz, hml, hrc, hmig, hsne, hsmono, hlu, hlk⟩ := hrf
          have hlkp : ∀ k0, mapGet s.lookup k0 = none → mapGet s1.lookup k0 = none := by
            intro k0 h1
            rcases hlk with hsame | ⟨kk, hrm⟩
            · rw [hsame]; exact h1
            · rw [hrm]; exact mapGet_mapRemove_of_none s.lookup k0 kk h1
          have hluj : ∀ j, j ∈ s.last_used → j ∈ s1.last_used ∧
              s1.store.get j = s.store.get j := by
            intro j hj
            have hne : j ≠ id := fun hh2 => hnotmem (hh2 ▸ hj)
            exact ⟨(hlu j hne).mpr hj, hsne j hne⟩
          obtain ⟨ilen, isz, iml, irc, imig, ismono, ilu2, ilk2, iret⟩ := ih s1
          refine ⟨by rw [ilen, hlen], by rw [isz, hsz], by rw [iml, hml],
            by rw [irc, hrc], by rw [imig, hmig],
            fun j x hx => hsmono j x (ismono j x hx), ?_, ?_, iret⟩
          · intro j hj
            obtain ⟨hj1, hj2⟩ := hluj j hj
            obtain ⟨hj3, hj4⟩ := ilu2 j hj1
            exact ⟨hj3, by rw [hj4, hj2]⟩
          · intro k0 h1
            exact ilk2 k0 (hlkp k0 h1)

theorem scanLayers_frame (w hh : Nat) :
    ∀ (ls : List Atlas) (g : GAlloc) (i : Nat) (ls1 : List Atlas),
    scanLayers w hh ls = some (g, i, ls1) → ls1.length = ls.length ∧ i < ls.length := by
  intro ls
  induction ls with
  | nil =>
    intro g i ls1 h
    simp [scanLayers] at h
  | cons layer rest ihl =>
    intro g i ls1 h
    unfold scanLayers at h
    split at h
    · split at h
      · exact absurd h (by simp)
      · rename_i g2 i2 rest1 hrec
        simp only [Option.some.injEq, Prod.mk.injEq] at h
        obtain ⟨hg, hi, hls⟩ := h
        obtain ⟨h1, h2⟩ := ihl g2 i2 rest1 hrec
        subst hls
        constructor
        · simp [h1]
        · rw [← hi]
          simp
          omega
    · split at h
      · rename_i g2 al1 hal
        simp only [Option.some.injEq, Prod.mk.injEq] at h
        obtain ⟨hg, hi, hls⟩ := h
        subst hls
        constructor
        · simp
        · rw [← hi]
          simp
      · split at h
        · exact absurd h (by simp)
        · rename_i g2 i2 rest1 hrec
          simp only [Option.some.injEq, Prod.mk.injEq] at h
          obtain ⟨hg, hi, hls⟩ := h
          obtain ⟨h1, h2⟩ := ihl g2 i2 rest1 hrec
          subst hls
          constructor
          · simp [h1]
          · rw [← hi]
            simp
            omega

theorem allocate_frame (s : AtlasSet) (w hh : Nat) (d : Int) :
    (s.layers.length ≤ (s.allocate w hh d).2.layers.length) ∧
    ((s.allocate w hh d).2.size = s.size) ∧
    ((s.allocate w hh d).2.max_layers = s.max_layers) ∧
    ((s.allocate w hh d).2.use_ref_count = s.use_ref_count) ∧
    (∀ j x, (s.allocate w hh d).2.store.get j = some x → s.store.get j = some x) ∧
    (∀ j, j ∈ s.last_used → j ∈ (s.allocate w hh d).2.last_used ∧
       (s.allocate w hh d).2.store.get j = s.store.get j) ∧
    (∀ k0, mapGet s.lookup k0 = none → mapGet (s.allocate w hh d).2.lookup k0 = none) ∧
    (∀ r, (s.allocate w hh d).1 = some r → r.layer < (s.allocate w hh d).2.layers.length) ∧
    (∀ t1, (s.allocate w hh d).2.migration = some t1 →
       ∃ t, s.migration = some t ∧ t1.migrating = t.migrating) := by
  unfold AtlasSet.allocate
  split
  · exact ⟨Nat.le_refl _, rfl, rfl, rfl, fun j x hx => hx, fun j hj => ⟨hj, rfl⟩,
      fun k0 h1 => h1, fun r hr => by simp at hr, fun t1 ht => ⟨t1, ht, rfl⟩⟩
  · split
    · rename_i g i layers1 hscan
      obtain ⟨h1, h2⟩ := scanLayers_frame w hh s.layers g i layers1 hscan
      refine ⟨by simp [h1], rfl, rfl, rfl, fun j x hx => hx, fun j hj => ⟨hj, rfl⟩,
        fun k0 hk => hk, ?_, fun t1 ht => ⟨t1, ht, rfl⟩⟩
      intro r hr
      have hr2 : r = ⟨g, i, d⟩ := by simpa using hr.symm
      rw [hr2]
      simpa [h1] using h2
    · dsimp only
      split
      · rename_i r0 s1 heq
        have hef := evictLoop_frame w hh d (s.cache.length + 1) s
        by_cases hrc : s.use_ref_count = true
        · rw [if_pos hrc] at heq
          exact EvictOut.noConfusion heq
        · rw [if_neg hrc] at heq
          rw [heq] at hef
          simp only [EvictOut.state] at hef
          obtain ⟨ilen, isz, iml, irc, imig, ismono, ilu, ilk, iret⟩ := hef
          refine ⟨Nat.le_of_eq ilen.symm, isz, iml, irc, ismono, ilu, ilk,
            fun r hr => iret r s1 ?_, fun t1 ht => ⟨t1, by rw [← imig, ht], rfl⟩⟩
          have hr0 : r0 = some r := hr
          rw [hr0]
      · rename_i s1 heq
        have hframe :
            s1.layers.length = s.layers.length ∧ s1.size = s.size ∧
            s1.max_layers = s.max_layers ∧ s1.use_ref_count = s.use_ref_count ∧
            s1.migration = s.migration ∧
            (∀ j x, s1.store.get j = some x → s.store.get j = some x) ∧
            (∀ j, j ∈ s.last_used → j ∈ s1.last_used ∧
              s1.store.get j = s.store.get j) ∧
            (∀ k0, mapGet s.lookup k0 = none → mapGet s1.lookup k0 = none) := by
          by_cases hrc : s.use_ref_count = true
          · rw [if_pos hrc] at heq
            injection heq.symm with h1
            subst h1
            exact ⟨rfl, rfl, rfl, rfl, rfl, fun j x hx => hx,
              fun j hj => ⟨hj, rfl⟩, fun k0 hk => hk⟩
          · rw [if_neg hrc] at heq
            have hef := evictLoop_frame w hh d (s.cache.length + 1) s
            rw [heq] at hef
            simp only [EvictOut.state] at hef
            obtain ⟨ilen, isz, iml, irc, imig, ismono, ilu, ilk, -⟩ := hef
            exact ⟨ilen, isz, iml, irc, imig, ismono, ilu, ilk⟩
        obtain ⟨ilen, isz, iml, irc, imig, ismono, ilu, ilk⟩ := hframe
        split
        · exact ⟨Nat.le_of_eq ilen.symm, isz, iml, irc, ismono, ilu, ilk,
            fun r hr => by simp at hr, fun t1 ht => ⟨t1, by rw [← imig, ht], rfl⟩⟩
        · split
          · rename_i g al1 hal
            dsimp only
            split
            · rename_i m hm
              refine ⟨?_, isz, iml, irc, ismono, ilu, ilk, ?_, ?_⟩
              · rw [← ilen]
                simp
              · intro r hr
                have hr2 : r = ⟨g, s1.layers.length + 1 - 1, d⟩ := by
                  simpa using hr.symm
                rw [hr2]
                simp
              · intro t1 ht
                have ht2 : t1 = { m with avaliable := m.avaliable ++ [s1.layers.length + 1 - 1] } := by
                  simpa using ht.symm
                refine ⟨m, by rw [← imig, hm], by rw [ht2]⟩
            · rename_i hm
              refine ⟨?_, isz, iml, irc, ismono, ilu, ilk, ?_, ?_⟩
              · rw [← ilen]
                simp
              · intro r hr
                have hr2 : r = ⟨g, s1.layers.length + 1 - 1, d⟩ := by
                  simpa using hr.symm
                rw [hr2]
                simp
              · intro t1 ht
                have ht2 : s1.migration = some t1 := ht
                have hm2 : s1.migration = none := hm
                rw [hm2] at ht2
                exact absurd ht2 (by simp)
          · exact ⟨Nat.le_of_eq ilen.symm, isz, iml, irc, ismono, ilu, ilk,
              fun r hr => by simp at hr, fun t1 ht => ⟨t1, by rw [← imig, ht], rfl⟩⟩

/-- C6: the eviction loop inside allocate never removes a handle that is a
member of last_used: in non-ref-count mode, for every handle currently in
last_used, any sequence of allocate calls leaves both its last_used
membership and its store slot exactly as they were (the loop stops at the
first least-recently-used entry found in last_used, and every handle it
does remove was outside last_used). -/
theorem allocate_never_evicts_last_used (s : AtlasSet) (id : Nat)
    (reqs : List (Nat × Nat × Int))
    (hmode : s.use_ref_count = false) (hmem : id ∈ s.last_used) :
    id ∈ (allocSeq reqs s).last_used ∧
    (allocSeq reqs s).store.get id = s.store.get id := by
  induction reqs generalizing s with
  | nil => exact ⟨hmem, rfl⟩
  | cons r rest ihr =>
    obtain ⟨-, -, -, hrc, -, hlu, -, -, -⟩ := allocate_frame s r.1 r.2.1 r.2.2
    obtain ⟨h1, h2⟩ := hlu id hmem
    have hmode1 : (s.allocate r.1 r.2.1 r.2.2).2.use_ref_count = false := by
      rw [hrc, hmode]
    obtain ⟨h3, h4⟩ := ihr (s := (s.allocate r.1 r.2.1 r.2.2).2) hmode1 h1
    refine ⟨h3, ?_⟩
    show (allocSeq rest ((s.allocate r.1 r.2.1 r.2.2).2)).store.get id = s.store.get id
    rw [h4, h2]

/-- Witness for C6: a non-ref-count atlas holding handle 0 in last_used,
driven through an in-bounds and an out-of-bounds allocation request. -/
theorem allocate_never_evicts_last_used_witness :
    0 ∈ (allocSeq [(64, 64, 0), (300, 300, 0)]
      { AtlasSet.init 256 10 false false with
        last_used := [0]
        store := ⟨[SlabEntry.occupied (⟨sampleGAlloc, 0, 0⟩, 7)], 1⟩
        cache := [(0, 1)] }).last_used ∧
    (allocSeq [(64, 64, 0), (300, 300, 0)]
      { AtlasSet.init 256 10 false false with
        last_used := [0]
        store := ⟨[SlabEntry.occupied (⟨sampleGAlloc, 0, 0⟩, 7)], 1⟩
        cache := [(0, 1)] }).store.get 0 =
      ({ AtlasSet.init 256 10 false false with
        last_used := [0]
        store := ⟨[SlabEntry.occupied (⟨sampleGAlloc, 0, 0⟩, 7)], 1⟩
        cache := [(0, 1)] } : AtlasSet).store.get 0 :=
  allocate_never_evicts_last_used _ 0 [(64, 64, 0), (300, 300, 0)] rfl (by decide)

/-- C7: an upload returning none for a key that was not registered leaves
no partial state for that key: afterwards the lookup has no entry for it,
no slot in the store holds it, and therefore no cache entry belongs to a
slot holding it (the allocation failure happens before any slot, lookup
or cache insertion; the eviction loop can only vacate slots). -/
theorem upload_failure_leaves_no_partial_state (s : AtlasSet) (key : Nat)
    (bytes : List Nat) (width height : Nat) (data : Int) (s1 : AtlasSet)
    (evs : List WriteEvent)
    (hmiss : mapGet s.lookup key = none)
    (hstore : ∀ j a, s.store.get j ≠ some (a, key))
    (h : s.upload key bytes width height data = (none, s1, evs)) :
    mapGet s1.lookup key = none ∧
    (∀ j a, s1.store.get j ≠ some (a, key)) ∧
    (∀ p ∈ s1.cache, ∀ a, s1.store.get p.1 ≠ some (a, key)) := by
  unfold AtlasSet.upload at h
  rw [hmiss] at h
  cases halloc : s.allocate width height data with
  | mk r s2 =>
    rw [halloc] at h
    cases r with
    | some allocation => simp at h
    | none =>
      simp only [Prod.mk.injEq] at h
      obtain ⟨-, hs1, -⟩ := h
      subst hs1
      obtain ⟨-, -, -, -, hmono, -, hlk, -, -⟩ := allocate_frame s width height data
      rw [halloc] at hmono hlk
      have hst : ∀ j a, s2.store.get j ≠ some (a, key) := by
        intro j a hj
        exact hstore j a (hmono j (a, key) hj)
      exact ⟨hlk key hmiss, hst, fun p _ a => hst p.1 a⟩

/-- Witness for C7: the full one-layer ref-count atlas rejects a 64 by 64
upload of the fresh key 9 and registers nothing for it. -/
theorem upload_failure_leaves_no_partial_state_witness :
    mapGet (refFullAtlas.upload 9 [] 64 64 0).2.1.lookup 9 = none ∧
    (∀ j a, (refFullAtlas.upload 9 [] 64 64 0).2.1.store.get j ≠ some (a, 9)) := by
  have h := upload_failure_leaves_no_partial_state refFullAtlas 9 [] 64 64 0
    (refFullAtlas.upload 9 [] 64 64 0).2.1 (refFullAtlas.upload 9 [] 64 64 0).2.2
    rfl
    (by intro j a hj; simp [refFullAtlas, AtlasSet.init, Slab.get] at hj)
    rfl
  exact ⟨h.1, h.2.1⟩

theorem remove_by_key_frame (s : AtlasSet) (key : Nat) :
    (s.remove_by_key key).2.layers.length = s.layers.length ∧
    (s.remove_by_key key).2.size = s.size ∧
    (s.remove_by_key key).2.max_layers = s.max_layers ∧
    (s.remove_by_key key).2.use_ref_count = s.use_ref_count ∧
    (s.remove_by_key key).2.migration = s.migration ∧
    (∀ j x, (s.remove_by_key key).2.store.get j = some x → s.store.get j = some x) := by
  unfold AtlasSet.remove_by_key
  split
  · exact ⟨rfl, rfl, rfl, rfl, rfl, fun j x hx => hx⟩
  · rename_i id hlook
    split
    · exact ⟨rfl, rfl, rfl, rfl, rfl, fun j x hx => hx⟩
    · rename_i v cache1 hpop
      dsimp only
      split
      · exact ⟨rfl, rfl, rfl, rfl, rfl, fun j x hx => hx⟩
      · split
        · exact ⟨rfl, rfl, rfl, rfl, rfl, fun j x hx => hx⟩
        · rename_i allocation k2 store1 hrm
          have hget := Slab.get_of_remove_some s.store id (allocation, k2) store1 hrm
          have hmono : ∀ j x, store1.get j = some x → s.store.get j = some x := by
            intro j x hx
            by_cases hj : j = id
            · subst hj
              rw [hget.2] at hx
              exact absurd hx (by simp)
            · have h1 := Slab.get_remove_ne s.store id j hj
              rw [hrm] at h1
              rw [← h1]
              exact hx
          split
          · exact ⟨rfl, rfl, rfl, rfl, rfl, hmono⟩
          · exact ⟨by simp, rfl, rfl, rfl, rfl, hmono⟩

theorem get_frame (s : AtlasSet) (id : Nat) :
    (s.get id).2.store = s.store ∧ (s.get id).2.layers = s.layers ∧
    (s.get id).2.migration = s.migration := by
  unfold AtlasSet.get
  split
  · exact ⟨rfl, rfl, rfl⟩
  · exact ⟨rfl, rfl, rfl⟩

theorem get_by_key_frame (s : AtlasSet) (key : Nat) :
    (s.get_by_key key).2.store = s.store ∧ (s.get_by_key key).2.layers = s.layers ∧
    (s.get_by_key key).2.migration = s.migration := by
  unfold AtlasSet.get_by_key
  split
  · exact ⟨rfl, rfl, rfl⟩
  · split
    · exact ⟨rfl, rfl, rfl⟩
    · exact ⟨rfl, rfl, rfl⟩

theorem promote_by_key_frame (s : AtlasSet) (key : Nat) :
    (s.promote_by_key key).store = s.store ∧ (s.promote_by_key key).layers = s.layers ∧
    (s.promote_by_key key).migration = s.migration := by
  unfold AtlasSet.promote_by_key
  split
  · exact ⟨rfl, rfl, rfl⟩
  · exact ⟨rfl, rfl, rfl⟩

theorem add_empty_layer_frame (s : AtlasSet) (task : MigrationTask)
    (lid : Nat) (s1 : AtlasSet) (task1 : MigrationTask)
    (h : s.add_empty_layer task = Except.ok (lid, s1, task1)) :
    s1.layers = s.layers ++ [Atlas.new s.size] ∧ lid = s.layers.length ∧
    s1.store = s.store ∧ s1.lookup = s.lookup ∧ s1.migration = s.migration ∧
    s1.size = s.size ∧ s1.max_layers = s.max_layers ∧
    task1.migrating = task.migrating ∧
    task1.avaliable = task.avaliable ++ [s.layers.length] := by
  unfold AtlasSet.add_empty_layer at h
  split at h
  · exact absurd h (by simp)
  · simp only [Except.ok.injEq, Prod.mk.injEq] at h
    obtain ⟨hlid, hs1, htask⟩ := h
    subst hs1 htask
    refine ⟨rfl, by simp at hlid; omega, rfl, rfl, rfl, rfl, rfl, rfl, by simp⟩

theorem tryAvaliable_frame (w hh : Nat) (s : AtlasSet) :
    ∀ (av : List Nat) (g : GAlloc) (lid : Nat) (s1 : AtlasSet),
    tryAvaliable w hh s av = some (g, lid, s1) →
    s1.store = s.store ∧ s1.lookup = s.lookup ∧ s1.migration = s.migration ∧
    s1.layers.length = s.layers.length ∧ s1.size = s.size ∧
    s1.max_layers = s.max_layers ∧ lid < s.layers.length ∧ lid ∈ av ∧
    (∀ j, j ≠ lid → s1.layers[j]? = s.layers[j]?) := by
  intro av
  induction av with
  | nil =>
    intro g lid s1 h
    simp [tryAvaliable] at h
  | cons a rest iha =>
    intro g lid s1 h
    unfold tryAvaliable at h
    split at h
    · obtain ⟨h1, h2, h3, h4, h5, h6, h7, h8, h9⟩ := iha g lid s1 h
      exact ⟨h1, h2, h3, h4, h5, h6, h7, List.mem_cons_of_mem a h8, h9⟩
    · rename_i layer hlay
      split at h
      · rename_i g2 al1 hal
        simp only [Option.some.injEq, Prod.mk.injEq] at h
        obtain ⟨hg, hlid, hs1⟩ := h
        subst hs1
        have hlt : a < s.layers.length := (List.getElem?_eq_some.mp hlay).1
        subst hlid
        exact ⟨rfl, rfl, rfl, by simp, rfl, rfl, hlt, List.mem_cons_self a rest,
          fun j hj => List.getElem?_set_ne (Ne.symm hj)⟩
      · obtain ⟨h1, h2, h3, h4, h5, h6, h7, h8, h9⟩ := iha g lid s1 h
        exact ⟨h1, h2, h3, h4, h5, h6, h7, List.mem_cons_of_mem a h8, h9⟩

theorem migrateLoop_frame :
    ∀ (lst : List (Nat × Allocation)) (s : AtlasSet) (task : MigrationTask)
      (acc : List (Nat × Allocation)),
    ((migrateLoop lst s task acc).2.1.store = s.store) ∧
    ((migrateLoop lst s task acc).2.1.lookup = s.lookup) ∧
    ((migrateLoop lst s task acc).2.1.migration = s.migration) ∧
    ((migrateLoop lst s task acc).2.1.size = s.size) ∧
    (s.layers.length ≤ (migrateLoop lst s task acc).2.1.layers.length) ∧
    ((migrateLoop lst s task acc).2.2.migrating = task.migrating) ∧
    (∃ ext, (migrateLoop lst s task acc).2.2.avaliable = task.avaliable ++ ext) ∧
    (∀ out, (migrateLoop lst s task acc).1 = Except.ok out →
       ∀ p ∈ out, p ∈ acc ∨ p.2.layer < (migrateLoop lst s task acc).2.1.layers.length) := by
  intro lst
  induction lst with
  | nil =>
    intro s task acc
    refine ⟨rfl, rfl, rfl, rfl, Nat.le_refl _, rfl, ⟨[], by simp [migrateLoop]⟩, ?_⟩
    intro out hout p hp
    have hout2 : acc = out := by simpa [migrateLoop] using hout
    exact Or.inl (hout2 ▸ hp)
  | cons pr rest ihm =>
    intro s task acc
    obtain ⟨id, allocation⟩ := pr
    unfold migrateLoop
    split
    · rename_i e hadd
      dsimp only
      split
      · rename_i g lid st htry
        obtain ⟨t1, t2, t3, t4, t5, t6, t7, t8, t9⟩ :=
          tryAvaliable_frame allocation.allocation.rectangle.width
            allocation.allocation.rectangle.height s task.avaliable g lid st htry
        obtain ⟨i1, i2, i3, i4, i5, i6, i7, i8⟩ :=
          ihm st task (acc ++ [(id, ⟨g, lid, allocation.data⟩)])
        refine ⟨by rw [i1, t1], by rw [i2, t2], by rw [i3, t3], by rw [i4, t5],
          by rw [← t4]; exact i5, i6, i7, ?_⟩
        intro out hout p hp
        rcases i8 out hout p hp with hin | hbound
        · rcases List.mem_append.mp hin with hin2 | hin2
          · exact Or.inl hin2
          · right
            have hp2 : p = (id, (⟨g, lid, allocation.data⟩ : Allocation)) := by
              simpa using hin2
            rw [hp2]
            have hlt : lid < st.layers.length := by rw [t4]; exact t7
            exact lt_of_lt_of_le hlt i5
        · exact Or.inr hbound
      · exact ⟨rfl, rfl, rfl, rfl, Nat.le_refl _, rfl, ⟨[], by simp⟩,
          fun out hout => absurd hout (by simp)⟩
    · rename_i lid0 s1 task1 hadd
      obtain ⟨a1, a2, a3, a4, a5, a6, a7, a8, a9⟩ :=
        add_empty_layer_frame s task lid0 s1 task1 hadd
      dsimp only
      split
      · rename_i g lid st htry
        obtain ⟨t1, t2, t3, t4, t5, t6, t7, t8, t9⟩ :=
          tryAvaliable_frame allocation.allocation.rectangle.width
            allocation.allocation.rectangle.height s task.avaliable g lid st htry
        obtain ⟨i1, i2, i3, i4, i5, i6, i7, i8⟩ :=
          ihm st task (acc ++ [(id, ⟨g, lid, allocation.data⟩)])
        refine ⟨by rw [i1, t1], by rw [i2, t2], by rw [i3, t3], by rw [i4, t5],
          by rw [← t4]; exact i5, i6, i7, ?_⟩
        intro out hout p hp
        rcases i8 out hout p hp with hin | hbound
        · rcases List.mem_append.mp hin with hin2 | hin2
          · exact Or.inl hin2
          · right
            have hp2 : p = (id, (⟨g, lid, allocation.data⟩ : Allocation)) := by
              simpa using hin2
            rw [hp2]
            have hlt : lid < st.layers.length := by rw [t4]; exact t7
            exact lt_of_lt_of_le hlt i5
        · exact Or.inr hbound
      · split
        · rename_i layer hlay
          split
          · rename_i g al1 hal
            obtain ⟨i1, i2, i3, i4, i5, i6, i7, i8⟩ :=
              ihm { s1 with layers := s1.layers.set lid0 { layer with allocator := al1 } }
                task1 (acc ++ [(id, ⟨g, lid0, allocation.data⟩)])
            have hlen1 : s1.layers.length = s.layers.length + 1 := by
              rw [a1]; simp
            simp only [List.length_set] at i5
            refine ⟨by rw [i1]; exact a3, by rw [i2]; exact a4, by rw [i3]; exact a5,
              by rw [i4]; exact a6, by omega, by rw [i6, a8], ?_, ?_⟩
            · obtain ⟨ext, hext⟩ := i7
              exact ⟨[s.layers.length] ++ ext, by rw [hext, a9]; simp⟩
            · intro out hout p hp
              rcases i8 out hout p hp with hin | hbound
              · rcases List.mem_append.mp hin with hin2 | hin2
                · exact Or.inl hin2
                · right
                  have hp2 : p = (id, (⟨g, lid0, allocation.data⟩ : Allocation)) := by
                    simpa using hin2
                  rw [hp2]
                  have hlt : lid0 < s1.layers.length := by omega
                  dsimp only
                  omega
              · exact Or.inr hbound
          · exact ⟨a3, a4, a5, a6, by rw [a1]; simp, a8,
              ⟨[s.layers.length], a9⟩, fun out hout => absurd hout (by simp)⟩
        · exact ⟨a3, a4, a5, a6, by rw [a1]; simp, a8,
            ⟨[s.layers.length], a9⟩, fun out hout => absurd hout (by simp)⟩

theorem migrateLoop_avoid (bad : Nat) :
    ∀ (lst : List (Nat × Allocation)) (s : AtlasSet) (task : MigrationTask)
      (acc : List (Nat × Allocation)),
    bad ∉ task.avaliable → bad < s.layers.length →
    (∀ p ∈ acc, p.2.layer ≠ bad) →
    (bad ∉ (migrateLoop lst s task acc).2.2.avaliable) ∧
    ((migrateLoop lst s task acc).2.1.layers[bad]? = s.layers[bad]?) ∧
    (bad < (migrateLoop lst s task acc).2.1.layers.length) ∧
    (∀ out, (migrateLoop lst s task acc).1 = Except.ok out →
       ∀ p ∈ out, p.2.layer ≠ bad) := by
  intro lst
  induction lst with
  | nil =>
    intro s task acc hnot hlt hacc
    refine ⟨hnot, rfl, hlt, ?_⟩
    intro out hout p hp
    have hout2 : acc = out := by simpa [migrateLoop] using hout
    exact hacc p (hout2 ▸ hp)
  | cons pr rest ihm =>
    intro s task acc hnot hlt hacc
    obtain ⟨id, allocation⟩ := pr
    unfold migrateLoop
    split
    · rename_i e hadd
      dsimp only
      split
      · rename_i g lid st htry
        obtain ⟨t1, t2, t3, t4, t5, t6, t7, t8, t9⟩ :=
          tryAvaliable_frame allocation.allocation.rectangle.width
            allocation.allocation.rectangle.height s task.avaliable g lid st htry
        have hlidne : lid ≠ bad := fun he => hnot (he ▸ t8)
        have hbadst : st.layers[bad]? = s.layers[bad]? := t9 bad (Ne.symm hlidne)
        have hltst : bad < st.layers.length := by rw [t4]; exact hlt
        have hacc2 : ∀ p ∈ acc ++ [(id, (⟨g, lid, allocation.data⟩ : Allocation))],
            p.2.layer ≠ bad := by
          intro p hp
          rcases List.mem_append.mp hp with hp2 | hp2
          · exact hacc p hp2
          · have hp3 : p = (id, (⟨g, lid, allocation.data⟩ : Allocation)) := by
              simpa using hp2
            rw [hp3]
            exact hlidne
        obtain ⟨i1, i2, i3, i4⟩ :=
          ihm st task (acc ++ [(id, ⟨g, lid, allocation.data⟩)]) hnot hltst hacc2
        exact ⟨i1, by rw [i2, hbadst], i3, i4⟩
      · exact ⟨hnot, rfl, hlt, fun out hout => absurd hout (by simp)⟩
    · rename_i lid0 s1 task1 hadd
      obtain ⟨a1, a2, a3, a4, a5, a6, a7, a8, a9⟩ :=
        add_empty_layer_frame s task lid0 s1 task1 hadd
      have hbadlen : bad ≠ s.layers.length := by omega
      have hnot1 : bad ∉ task1.avaliable := by
        rw [a9]
        intro hmem
        rcases List.mem_append.mp hmem with hm2 | hm2
        · exact hnot hm2
        · exact hbadlen (by simpa using hm2)
      have hbads1 : s1.layers[bad]? = s.layers[bad]? := by
        rw [a1, List.getElem?_append]
        rw [if_pos hlt]
      have hlts1 : bad < s1.layers.length := by
        rw [a1]
        simp
        omega
      dsimp only
      split
      · rename_i g lid st htry
        obtain ⟨t1, t2, t3, t4, t5, t6, t7, t8, t9⟩ :=
          tryAvaliable_frame allocation.allocation.rectangle.width
            allocation.allocation.rectangle.height s task.avaliable g lid st htry
        have hlidne : lid ≠ bad := fun he => hnot (he ▸ t8)
        have hbadst : st.layers[bad]? = s.layers[bad]? := t9 bad (Ne.symm hlidne)
        have hltst : bad < st.layers.length := by rw [t4]; exact hlt
        have hacc2 : ∀ p ∈ acc ++ [(id, (⟨g, lid, allocation.data⟩ : Allocation))],
            p.2.layer ≠ bad := by
          intro p hp
          rcases List.mem_append.mp hp with hp2 | hp2
          · exact hacc p hp2
          · have hp3 : p = (id, (⟨g, lid, allocation.data⟩ : Allocation)) := by
              simpa using hp2
            rw [hp3]
            exact hlidne
        obtain ⟨i1, i2, i3, i4⟩ :=
          ihm st task (acc ++ [(id, ⟨g, lid, allocation.data⟩)]) hnot hltst hacc2
        exact ⟨i1, by rw [i2, hbadst], i3, i4⟩
      · split
        · rename_i layer hlay
          split
          · rename_i g al1 hal
            have hlid0 : lid0 ≠ bad := by rw [a2]; omega
            have hbads2 :
                (s1.layers.set lid0 { layer with allocator := al1 })[bad]? =
                  s.layers[bad]? := by
              rw [List.getElem?_set_ne hlid0, hbads1]
            have hacc2 : ∀ p ∈ acc ++ [(id, (⟨g, lid0, allocation.data⟩ : Allocation))],
                p.2.layer ≠ bad := by
              intro p hp
              rcases List.mem_append.mp hp with hp2 | hp2
              · exact hacc p hp2
              · have hp3 : p = (id, (⟨g, lid0, allocation.data⟩ : Allocation)) := by
                  simpa using hp2
                rw [hp3]
                exact hlid0
            have hlts2 :
                bad < ({ s1 with layers := s1.layers.set lid0 { layer with allocator := al1 } } : AtlasSet).layers.length := by
              simpa using hlts1
            obtain ⟨i1, i2, i3, i4⟩ :=
              ihm { s1 with layers := s1.layers.set lid0 { layer with allocator := al1 } }
                task1 (acc ++ [(id, ⟨g, lid0, allocation.data⟩)]) hnot1 hlts2 hacc2
            refine ⟨i1, ?_, i3, i4⟩
            rw [i2]
            exact hbads2
          · exact ⟨hnot1, hbads1, hlts1, fun out hout => absurd hout (by simp)⟩
        · exact ⟨hnot1, hbads1, hlts1, fun out hout => absurd hout (by simp)⟩

theorem Slab.get_update_snd (st : Slab (Allocation × Nat)) (i : Nat)
    (alloc : Allocation) (j : Nat) :
    ((st.update i (fun pr => (alloc, pr.2))).get j).map Prod.snd =
      (st.get j).map Prod.snd := by
  by_cases hj : j = i
  · subst hj
    cases hget : st.get j with
    | none => rw [Slab.get_update_none st j _ hget]
    | some a =>
      rw [Slab.get_update_eq st j _ a hget]
      rfl
  · rw [Slab.get_update_ne st i j _ hj]

theorem listModify_length {α : Type} (l : List α) (i : Nat) (f : α → α) :
    (listModify l i f).length = l.length := by
  unfold listModify
  split
  · rfl
  · simp

theorem listModify_getElem_ne {α : Type} (l : List α) (i : Nat) (f : α → α)
    (j : Nat) (h : j ≠ i) : (listModify l i f)[j]? = l[j]? := by
  unfold listModify
  split
  · rfl
  · exact List.getElem?_set_ne (Ne.symm h)

theorem defragStoreLoop_frame :
    ∀ (lst : List (Nat × Allocation)) (s : AtlasSet),
    ((defragStoreLoop lst s).2.lookup = s.lookup) ∧
    ((defragStoreLoop lst s).2.migration = s.migration) ∧
    ((defragStoreLoop lst s).2.layers.length = s.layers.length) ∧
    ((defragStoreLoop lst s).2.size = s.size) ∧
    ((defragStoreLoop lst s).2.max_layers = s.max_layers) ∧
    (∀ j, ((defragStoreLoop lst s).2.store.get j).map Prod.snd =
       (s.store.get j).map Prod.snd) ∧
    ((∀ p ∈ lst, p.2.layer < s.layers.length) → LayerBound s →
       LayerBound (defragStoreLoop lst s).2) ∧
    (∀ bad, (∀ p ∈ lst, p.2.layer ≠ bad) →
       (defragStoreLoop lst s).2.layers[bad]? = s.layers[bad]?) := by
  intro lst
  induction lst with
  | nil =>
    intro s
    exact ⟨rfl, rfl, rfl, rfl, rfl, fun j => rfl, fun _ hb => hb, fun bad _ => rfl⟩
  | cons pr rest ihd =>
    intro s
    obtain ⟨id, allocation⟩ := pr
    unfold defragStoreLoop
    split
    · exact ⟨rfl, rfl, rfl, rfl, rfl, fun j => rfl, fun _ hb => hb, fun bad _ => rfl⟩
    · rename_i pr0 hget
      obtain ⟨i1, i2, i3, i4, i5, i6, i7, i8⟩ :=
        ihd { s with
              store := s.store.update id (fun pr => (allocation, pr.2))
              layers := listModify s.layers allocation.layer
                (fun l => l.insert_index id) }
      refine ⟨i1, i2, by rw [i3]; simp [listModify_length], i4, i5, ?_, ?_, ?_⟩
      · intro j
        rw [i6 j]
        exact Slab.get_update_snd s.store id allocation j
      · intro hlst hb
        refine i7 ?_ ?_
        · intro p hp
          have := hlst p (List.mem_cons_of_mem _ hp)
          simpa [listModify_length] using this
        · intro j a k hjk
          by_cases hj : j = id
          · subst hj
            have hup := Slab.get_update_eq s.store j (fun pr => (allocation, pr.2)) pr0 hget
            have hjk2 : allocation = a ∧ pr0.2 = k := by
              have := hjk
              rw [hup] at this
              simpa using this
            obtain ⟨ha, -⟩ := hjk2
            subst ha
            have := hlst _ (List.mem_cons_self _ _)
            simpa [listModify_length] using this
          · have hne := Slab.get_update_ne s.store id j (fun pr => (allocation, pr.2)) hj
            rw [hne] at hjk
            have := hb j a k hjk
            simpa [listModify_length] using this
      · intro bad hbad
        have hne : allocation.layer ≠ bad := hbad (id, allocation) (List.mem_cons_self _ _)
        rw [i8 bad (fun p hp => hbad p (List.mem_cons_of_mem _ hp))]
        exact listModify_getElem_ne s.layers allocation.layer _ bad (Ne.symm hne)

theorem migratePopAndDrain_frame (s : AtlasSet) (task : MigrationTask) :
    ((migratePopAndDrain s task).2.1.store = s.store) ∧
    ((migratePopAndDrain s task).2.1.lookup = s.lookup) ∧
    ((migratePopAndDrain s task).2.1.migration = s.migration) ∧
    (s.layers.length ≤ (migratePopAndDrain s task).2.1.layers.length) ∧
    (∀ out, (migratePopAndDrain s task).1 = Except.ok out →
       ∀ p ∈ out, p.2.layer < (migratePopAndDrain s task).2.1.layers.length) := by
  unfold migratePopAndDrain
  split
  · exact ⟨rfl, rfl, rfl, Nat.le_refl _, fun out hout => absurd hout (by simp)⟩
  · rename_i mlid hpop
    dsimp only
    obtain ⟨m1, m2, m3, m4, m5, m6, m7, m8⟩ :=
      migrateLoop_frame (gatherLayer s mlid) s
        { task with migrating := task.migrating.dropLast } []
    split
    · rename_i e s1 task1 hml
      rw [hml] at m1 m2 m3 m5
      exact ⟨m1, m2, m3, m5, fun out hout => absurd hout (by simp)⟩
    · rename_i migrated s1 task1 hml
      rw [hml] at m1 m2 m3 m5 m8
      split
      · exact ⟨m1, m2, m3, m5, fun out hout => absurd hout (by simp)⟩
      · rename_i layer hlay
        refine ⟨m1, m2, m3, by simpa using m5, ?_⟩
        intro out hout p hp
        have hout2 : migrated = out := by simpa using hout
        rcases m8 migrated rfl p (hout2 ▸ hp) with hin | hbound
        · exact absurd hin (by simp)
        · simpa using hbound

theorem migratePopAndDrain_success (s : AtlasSet) (task : MigrationTask)
    (popped : Nat) (migrated : List (Nat × Allocation)) (s1 : AtlasSet)
    (task2 : MigrationTask)
    (hpop : task.migrating.getLast? = some popped)
    (hnot : popped ∉ task.avaliable)
    (hlt : popped < s.layers.length)
    (h : migratePopAndDrain s task = (Except.ok migrated, s1, task2)) :
    s1.store = s.store ∧ s1.lookup = s.lookup ∧ s1.migration = s.migration ∧
    task2.migrating = task.migrating.dropLast ∧
    task2.avaliable.getLast? = some popped ∧
    (s1.layers[popped]?).map
      (fun l => (l.allocated, l.migrating, l.allocator.deallocations)) =
      some ([], false, 0) ∧
    (∀ p ∈ migrated, p.2.layer ≠ popped) := by
  unfold migratePopAndDrain at h
  simp only [hpop] at h
  obtain ⟨m1, m2, m3, m4, m5, m6, m7, m8⟩ :=
    migrateLoop_frame (gatherLayer s popped) s
      { task with migrating := task.migrating.dropLast } []
  obtain ⟨v1, v2, v3, v4⟩ :=
    migrateLoop_avoid popped (gatherLayer s popped) s
      { task with migrating := task.migrating.dropLast } [] hnot hlt
      (fun p hp => absurd hp (by simp))
  cases hml : migrateLoop (gatherLayer s popped) s
      { task with migrating := task.migrating.dropLast } [] with
  | mk res rest2 =>
    obtain ⟨s10, task10⟩ := rest2
    rw [hml] at h m1 m2 m3 m5 m6 m8 v1 v2 v3 v4
    cases res with
    | error e =>
      dsimp only at h
      exact absurd (congrArg (fun t => t.1) h) (by simp)
    | ok migrated0 =>
      dsimp only at h
      cases hlay : s10.layers[popped]? with
      | none => rw [hlay] at h; exact absurd (congrArg (fun t => t.1) h) (by simp)
      | some layer =>
        rw [hlay] at h
        simp only [Prod.mk.injEq, Except.ok.injEq] at h
        obtain ⟨hmig0, hs1, htask2⟩ := h
        subst hmig0
        refine ⟨?_, ?_, ?_, ?_, ?_, ?_, ?_⟩
        · rw [← hs1]; exact m1
        · rw [← hs1]; exact m2
        · rw [← hs1]; exact m3
        · rw [← htask2]; exact m6
        · rw [← htask2]
          exact List.getLast?_concat _
        · rw [← hs1]
          have hlt10 : popped < s10.layers.length := v3
          rw [List.getElem?_set_eq_of_lt _ hlt10]
          rfl
        · exact v4 _ rfl

theorem upload_migration (s : AtlasSet) (key : Nat) (bytes : List Nat)
    (w hh : Nat) (d : Int) :
    ∀ t1, (s.upload key bytes w hh d).2.1.migration = some t1 →
      ∃ t, s.migration = some t ∧ t1.migrating = t.migrating := by
  unfold AtlasSet.upload
  split
  · exact fun t1 ht => ⟨t1, ht, rfl⟩
  · cases halloc : s.allocate w hh d with
    | mk r s2 =>
      obtain ⟨-, -, -, -, -, -, -, -, hmig⟩ := allocate_frame s w hh d
      rw [halloc] at hmig
      cases r with
      | none => exact fun t1 ht => hmig t1 ht
      | some allocation => exact fun t1 ht => hmig t1 ht

theorem set_alloc_migration (s : AtlasSet) (key w hh : Nat) (d : Int) :
    ∀ t1, (s.set_alloc key w hh d).2.migration = some t1 →
      ∃ t, s.migration = some t ∧ t1.migrating = t.migrating := by
  unfold AtlasSet.set_alloc
  dsimp only
  split
  · split
    · exact fun t1 ht => ⟨t1, ht, rfl⟩
    · exact fun t1 ht => ⟨t1, ht, rfl⟩
  · cases halloc : s.allocate (max w 1) (max hh 1) d with
    | mk r s2 =>
      obtain ⟨-, -, -, -, -, -, -, -, hmig⟩ := allocate_frame s (max w 1) (max hh 1) d
      rw [halloc] at hmig
      cases r with
      | none => exact fun t1 ht => hmig t1 ht
      | some allocation => exact fun t1 ht => hmig t1 ht

theorem migrate_reallocate_frame (s : AtlasSet) (task : MigrationTask) :
    ((s.migrate_reallocate task).2.1.store = s.store) ∧
    ((s.migrate_reallocate task).2.1.lookup = s.lookup) ∧
    ((s.migrate_reallocate task).2.1.migration = s.migration) ∧
    (s.layers.length ≤ (s.migrate_reallocate task).2.1.layers.length) ∧
    (∀ out, (s.migrate_reallocate task).1 = Except.ok out →
       ∀ p ∈ out, p.2.layer < (s.migrate_reallocate task).2.1.layers.length) := by
  unfold AtlasSet.migrate_reallocate
  split
  · split
    · exact ⟨rfl, rfl, rfl, Nat.le_refl _, fun out hout => absurd hout (by simp)⟩
    · rename_i lid s1 task1 hadd
      obtain ⟨a1, a2, a3, a4, a5, a6, a7, a8, a9⟩ :=
        add_empty_layer_frame s task lid s1 task1 hadd
      obtain ⟨p1, p2, p3, p4, p5⟩ := migratePopAndDrain_frame s1 task1
      refine ⟨by rw [p1, a3], by rw [p2, a4], by rw [p3, a5], ?_, p5⟩
      have : s.layers.length ≤ s1.layers.length := by
        rw [a1]; simp
      omega
  · exact migratePopAndDrain_frame s task

theorem defragment_task_nonempty (s : AtlasSet) (hs : TaskNonempty s) :
    TaskNonempty (s.defragment).2 := by
  unfold AtlasSet.defragment
  cases hmig : s.migration with
  | none =>
    simp only [hmig]
    exact hs
  | some task =>
    simp only [hmig]
    have hmr := (migrate_reallocate_frame { s with migration := none } task).2.2.1
    split
    · rename_i e s1 task1 hml
      rw [hml] at hmr
      intro t ht
      have ht2 : s1.migration = some t := ht
      rw [hmr] at ht2
      exact absurd ht2 (by simp)
    · rename_i migrate s1 task1 hml
      rw [hml] at hmr
      have hds := (defragStoreLoop_frame migrate s1).2.1
      split
      · rename_i e s2 hdl
        rw [hdl] at hds
        intro t ht
        have ht2 : s2.migration = some t := ht
        rw [hds, hmr] at ht2
        exact absurd ht2 (by simp)
      · rename_i s2 hdl
        rw [hdl] at hds
        split
        · intro t ht
          have ht2 : s2.migration = some t := ht
          rw [hds, hmr] at ht2
          exact absurd ht2 (by simp)
        · rename_i hne
          intro t ht
          have ht2 : task1 = t := by simpa using ht
          rw [← ht2]
          intro hcon
          exact hne (by simp [hcon])

/-- C10: a stored migration task always has a non-empty migrating list:
the invariant holds of a fresh atlas, is preserved by every public
operation (allocate only appends to a stored task's avaliable pool, and
defragment re-stores a task only after checking `!task.migrating.is_empty()`),
and under it the `task.migrating.pop()` inside migrate_reallocate always
succeeds, so its `.ok_or(GraphicsError::DefragFailed)` branch is
unreachable. -/
theorem migration_task_nonempty_invariant :
    (∀ (size maxl : Nat) (urc gl : Bool), TaskNonempty (AtlasSet.init size maxl urc gl)) ∧
    (∀ s s1, TaskNonempty s → Step s s1 → TaskNonempty s1) ∧
    (∀ (s : AtlasSet) (t : MigrationTask), TaskNonempty s → s.migration = some t →
       ∃ popped, t.migrating.getLast? = some popped) := by
  refine ⟨?_, ?_, ?_⟩
  · intro size maxl urc gl t ht
    exact absurd ht (by simp [AtlasSet.init])
  · intro s s1 hs hstep
    cases hstep with
    | upload key bytes w hh d =>
      intro t1 ht1
      obtain ⟨t, ht, hmig⟩ := upload_migration s key bytes w hh d t1 ht1
      rw [hmig]
      exact hs t ht
    | set_alloc key w hh d =>
      intro t1 ht1
      obtain ⟨t, ht, hmig⟩ := set_alloc_migration s key w hh d t1 ht1
      rw [hmig]
      exact hs t ht
    | get id =>
      intro t1 ht1
      rw [(get_frame s id).2.2] at ht1
      exact hs t1 ht1
    | get_by_key key =>
      intro t1 ht1
      rw [(get_by_key_frame s key).2.2] at ht1
      exact hs t1 ht1
    | remove id =>
      intro t1 ht1
      rw [(remove_frame s id).2.2.2.2.1] at ht1
      exact hs t1 ht1
    | remove_by_key key =>
      intro t1 ht1
      rw [(remove_by_key_frame s key).2.2.2.2.1] at ht1
      exact hs t1 ht1
    | promote id => exact hs
    | promote_by_key key =>
      intro t1 ht1
      rw [(promote_by_key_frame s key).2.2] at ht1
      exact hs t1 ht1
    | trim => exact hs
    | clear => exact hs
    | defragment => exact defragment_task_nonempty s hs
  · intro s t hs hmig
    cases hc : t.migrating.getLast? with
    | some p => exact ⟨p, rfl⟩
    | none =>
      have hne := hs t hmig
      cases hl : t.migrating with
      | nil => exact absurd hl hne
      | cons a l =>
        rw [hl] at hc
        simp at hc

/-- Witness for C10: the invariant holds of a fresh 256-sized atlas, is
preserved across a trim step from the mid-defragmentation fixture, and
yields the popped layer 0 for the fixture's stored task. -/
theorem migration_task_nonempty_invariant_witness :
    TaskNonempty (AtlasSet.init 256 10 true false) ∧
    TaskNonempty drainAtlas.trim ∧
    ∃ popped, (⟨[0], [1]⟩ : MigrationTask).migrating.getLast? = some popped := by
  have hdrain : TaskNonempty drainAtlas := by
    intro t ht
    have ht2 : (⟨[0], [1]⟩ : MigrationTask) = t := by simpa [drainAtlas] using ht
    rw [← ht2]
    simp
  refine ⟨migration_task_nonempty_invariant.1 256 10 true false, ?_, ?_⟩
  · exact migration_task_nonempty_invariant.2.1 drainAtlas drainAtlas.trim hdrain
      (Step.trim drainAtlas)
  · exact migration_task_nonempty_invariant.2.2 drainAtlas ⟨[0], [1]⟩ hdrain rfl

theorem LayerBound_of_eq (s s1 : AtlasSet) (hstore : s1.store = s.store)
    (hlay : s1.layers = s.layers) (hb : LayerBound s) : LayerBound s1 := by
  intro j a k hj
  rw [hstore] at hj
  rw [hlay]
  exact hb j a k hj

theorem LayerBound_upload (s : AtlasSet) (key : Nat) (bytes : List Nat)
    (w hh : Nat) (d : Int) (hb : LayerBound s) :
    LayerBound (s.upload key bytes w hh d).2.1 := by
  unfold AtlasSet.upload
  split
  · exact hb
  · cases halloc : s.allocate w hh d with
    | mk r s2 =>
      obtain ⟨hlen, -, -, -, hmono, -, -, hret, -⟩ := allocate_frame s w hh d
      rw [halloc] at hlen hmono hret
      cases r with
      | none =>
        intro j a k hj
        exact lt_of_lt_of_le (hb j a k (hmono j (a, k) hj)) hlen
      | some allocation =>
        intro j a k hj
        have hj2 : ((s2.store.insert (allocation, key)).2).get j = some (a, k) := hj
        show a.layer < (listModify s2.layers allocation.layer
          (fun l => l.insert_index (s2.store.insert (allocation, key)).1)).length
        rw [listModify_length]
        by_cases hid : j = (s2.store.insert (allocation, key)).1
        · subst hid
          rw [Slab.get_insert_self] at hj2
          have hak : allocation = a := by
            have := hj2
            simp only [Option.some.injEq, Prod.mk.injEq] at this
            exact this.1
          rw [← hak]
          exact hret allocation rfl
        · rw [Slab.get_insert_ne s2.store (allocation, key) j hid] at hj2
          exact lt_of_lt_of_le (hb j a k (hmono j (a, k) hj2)) hlen

theorem upload_layers_le (s : AtlasSet) (key : Nat) (bytes : List Nat)
    (w hh : Nat) (d : Int) :
    s.layers.length ≤ (s.upload key bytes w hh d).2.1.layers.length := by
  unfold AtlasSet.upload
  split
  · exact Nat.le_refl _
  · cases halloc : s.allocate w hh d with
    | mk r s2 =>
      obtain ⟨hlen, -, -, -, -, -, -, -, -⟩ := allocate_frame s w hh d
      rw [halloc] at hlen
      cases r with
      | none => exact hlen
      | some allocation =>
        show s.layers.length ≤ (listModify s2.layers allocation.layer
          (fun l => l.insert_index (s2.store.insert (allocation, key)).1)).length
        rw [listModify_length]
        exact hlen

theorem LayerBound_set_alloc (s : AtlasSet) (key w hh : Nat) (d : Int)
    (hb : LayerBound s) : LayerBound (s.set_alloc key w hh d).2 := by
  unfold AtlasSet.set_alloc
  dsimp only
  split
  · split
    · exact hb
    · exact hb
  · cases halloc : s.allocate (max w 1) (max hh 1) d with
    | mk r s2 =>
      obtain ⟨hlen, -, -, -, hmono, -, -, hret, -⟩ := allocate_frame s (max w 1) (max hh 1) d
      rw [halloc] at hlen hmono hret
      cases r with
      | none =>
        intro j a k hj
        exact lt_of_lt_of_le (hb j a k (hmono j (a, k) hj)) hlen
      | some allocation =>
        intro j a k hj
        have hj2 : ((s2.store.insert (allocation, key)).2).get j = some (a, k) := hj
        show a.layer < (listModify s2.layers allocation.layer
          (fun l => l.insert_index (s2.store.insert (allocation, key)).1)).length
        rw [listModify_length]
        by_cases hid : j = (s2.store.insert (allocation, key)).1
        · subst hid
          rw [Slab.get_insert_self] at hj2
          have hak : allocation = a := by
            have := hj2
            simp only [Option.some.injEq, Prod.mk.injEq] at this
            exact this.1
          rw [← hak]
          exact hret allocation rfl
        · rw [Slab.get_insert_ne s2.store (allocation, key) j hid] at hj2
          exact lt_of_lt_of_le (hb j a k (hmono j (a, k) hj2)) hlen

theorem set_alloc_layers_le (s : AtlasSet) (key w hh : Nat) (d : Int) :
    s.layers.length ≤ (s.set_alloc key w hh d).2.layers.length := by
  unfold AtlasSet.set_alloc
  dsimp only
  split
  · split
    · exact Nat.le_refl _
    · exact Nat.le_refl _
  · cases halloc : s.allocate (max w 1) (max hh 1) d with
    | mk r s2 =>
      obtain ⟨hlen, -, -, -, -, -, -, -, -⟩ := allocate_frame s (max w 1) (max hh 1) d
      rw [halloc] at hlen
      cases r with
      | none => exact hlen
      | some allocation =>
        show s.layers.length ≤ (listModify s2.layers allocation.layer
          (fun l => l.insert_index (s2.store.insert (allocation, key)).1)).length
        rw [listModify_length]
        exact hlen

theorem LayerBound_defragment (s : AtlasSet) (hb : LayerBound s) :
    LayerBound (s.defragment).2 ∧ s.layers.length ≤ (s.defragment).2.layers.length := by
  unfold AtlasSet.defragment
  cases hmig : s.migration with
  | none =>
    simp only [hmig]
    exact ⟨hb, Nat.le_refl _⟩
  | some task =>
    simp only [hmig]
    obtain ⟨r1, r2, r3, r4, r5⟩ :=
      migrate_reallocate_frame { s with migration := none } task
    split
    · rename_i e s1 task1 hml
      rw [hml] at r1 r4
      dsimp only at r1 r4 ⊢
      refine ⟨?_, r4⟩
      intro j a k hj
      have hj2 : s.store.get j = some (a, k) := by rw [← r1]; exact hj
      exact lt_of_lt_of_le (hb j a k hj2) r4
    · rename_i migrate s1 task1 hml
      rw [hml] at r1 r4 r5
      dsimp only at r1 r4 r5
      have hlb1 : LayerBound s1 := by
        intro j a k hj
        have hj2 : s.store.get j = some (a, k) := by rw [← r1]; exact hj
        exact lt_of_lt_of_le (hb j a k hj2) r4
      have hbound : ∀ p ∈ migrate, p.2.layer < s1.layers.length := r5 migrate rfl
      obtain ⟨-, -, d3, -, -, -, d7, -⟩ := defragStoreLoop_frame migrate s1
      have hlb2 := d7 hbound hlb1
      split
      · rename_i e s2 hdl
        rw [hdl] at hlb2 d3
        dsimp only at hlb2 d3 ⊢
        exact ⟨hlb2, by omega⟩
      · rename_i s2 hdl
        rw [hdl] at hlb2 d3
        dsimp only at hlb2 d3
        split
        · dsimp only
          exact ⟨hlb2, by omega⟩
        · refine ⟨LayerBound_of_eq _ s2 rfl rfl hlb2, ?_⟩
          show s.layers.length ≤
            ({ s2 with migration := some task1 } : AtlasSet).layers.length
          dsimp only
          omega

/-- C9: every live handle's stored layer index stays strictly below the
layer count: the invariant holds of a fresh atlas and is preserved by
every public operation, the layer list never shrinks across any
operation, and under the invariant the `self.layers.get_mut(...)` lookup
inside remove succeeds for every live handle whose cache pop goes
through, returning its layer index. -/
theorem live_handle_layer_index_invariant :
    (∀ (size maxl : Nat) (urc gl : Bool), LayerBound (AtlasSet.init size maxl urc gl)) ∧
    (∀ s s1, LayerBound s → Step s s1 →
       LayerBound s1 ∧ s.layers.length ≤ s1.layers.length) ∧
    (∀ (s : AtlasSet) (id : Nat) (a : Allocation) (k v : Nat) (c1 : Lru),
       LayerBound s → s.store.get id = some (a, k) →
       lruPop s.cache id = some (v, c1) →
       (s.use_ref_count && decide (v - 1 > 0)) = false →
       (s.remove id).1 = some a.layer) := by
  refine ⟨?_, ?_, ?_⟩
  · intro size maxl urc gl j a k hj
    exact absurd hj (by simp [AtlasSet.init, Slab.get])
  · intro s s1 hb hstep
    cases hstep with
    | upload key bytes w hh d =>
      exact ⟨LayerBound_upload s key bytes w hh d hb, upload_layers_le s key bytes w hh d⟩
    | set_alloc key w hh d =>
      exact ⟨LayerBound_set_alloc s key w hh d hb, set_alloc_layers_le s key w hh d⟩
    | get id =>
      obtain ⟨h1, h2, -⟩ := get_frame s id
      exact ⟨LayerBound_of_eq s _ h1 h2 hb, Nat.le_of_eq (congrArg List.length h2.symm)⟩
    | get_by_key key =>
      obtain ⟨h1, h2, -⟩ := get_by_key_frame s key
      exact ⟨LayerBound_of_eq s _ h1 h2 hb, Nat.le_of_eq (congrArg List.length h2.symm)⟩
    | remove id =>
      obtain ⟨hlen, -, -, -, -, -, hmono, -, -⟩ := remove_frame s id
      refine ⟨?_, Nat.le_of_eq hlen.symm⟩
      intro j a k hj
      have := hb j a k (hmono j (a, k) hj)
      omega
    | remove_by_key key =>
      obtain ⟨hlen, -, -, -, -, hmono⟩ := remove_by_key_frame s key
      refine ⟨?_, Nat.le_of_eq hlen.symm⟩
      intro j a k hj
      have := hb j a k (hmono j (a, k) hj)
      omega
    | promote id =>
      exact ⟨LayerBound_of_eq s _ rfl rfl hb, Nat.le_refl _⟩
    | promote_by_key key =>
      obtain ⟨h1, h2, -⟩ := promote_by_key_frame s key
      exact ⟨LayerBound_of_eq s _ h1 h2 hb, Nat.le_of_eq (congrArg List.length h2.symm)⟩
    | trim =>
      exact ⟨LayerBound_of_eq s _ rfl rfl hb, Nat.le_refl _⟩
    | clear =>
      refine ⟨?_, ?_⟩
      · intro j a k hj
        exact absurd hj (by simp [AtlasSet.clearAll, Slab.clearAll, Slab.get])
      · show s.layers.length ≤ (s.layers.map _).length
        simp
    | defragment =>
      exact LayerBound_defragment s hb
  · intro s id a k v c1 hb ha hpop hcond
    have hrem := Slab.remove_eq_of_get s.store id (a, k) ha
    have hlt : a.layer < s.layers.length := hb id a k ha
    have hl : s.layers[a.layer]? = some (s.layers.get ⟨a.layer, hlt⟩) := by
      rw [List.getElem?_eq_getElem hlt, List.get_eq_getElem]
    unfold AtlasSet.remove
    simp only [hpop]
    simp only [hcond, Bool.false_eq_true, if_false]
    simp only [hrem]
    simp only [hl]

/-- Witness for C9: the invariant holds of a fresh atlas, is preserved by
an upload step on it, and the remove of live handle 0 in the
mid-defragmentation fixture returns its layer index 0. -/
theorem live_handle_layer_index_invariant_witness :
    LayerBound (AtlasSet.init 256 10 true false) ∧
    (LayerBound ((AtlasSet.init 256 10 true false).upload 5 [] 4 4 0).2.1 ∧
     (AtlasSet.init 256 10 true false).layers.length ≤
       ((AtlasSet.init 256 10 true false).upload 5 [] 4 4 0).2.1.layers.length) ∧
    (drainAtlas.remove 0).1 = some 0 := by
  have hinit := live_handle_layer_index_invariant.1 256 10 true false
  have hdrain : LayerBound drainAtlas := by
    intro j a k hj
    cases j with
    | zero =>
      have hj2 : (⟨sampleGAlloc, 0, 0⟩ : Allocation) = a ∧ (7 : Nat) = k := by
        simpa [drainAtlas, Slab.get] using hj
      obtain ⟨ha, -⟩ := hj2
      rw [← ha]
      simp [drainAtlas]
    | succ n =>
      exact absurd hj (by simp [drainAtlas, Slab.get])
  refine ⟨hinit, ?_, ?_⟩
  · exact live_handle_layer_index_invariant.2.1 _ _ hinit
      (Step.upload (AtlasSet.init 256 10 true false) 5 [] 4 4 0)
  · exact live_handle_layer_index_invariant.2.2 drainAtlas 0
      ⟨sampleGAlloc, 0, 0⟩ 7 1 [] hdrain rfl rfl rfl

theorem migrate_reallocate_success (s : AtlasSet) (task : MigrationTask)
    (popped : Nat) (migrated : List (Nat × Allocation)) (s1 : AtlasSet)
    (task2 : MigrationTask)
    (hpop : task.migrating.getLast? = some popped)
    (hnot : popped ∉ task.avaliable)
    (hlt : popped < s.layers.length)
    (h : s.migrate_reallocate task = (Except.ok migrated, s1, task2)) :
    s1.store = s.store ∧ s1.lookup = s.lookup ∧ s1.migration = s.migration ∧
    task2.migrating = task.migrating.dropLast ∧
    task2.avaliable.getLast? = some popped ∧
    (s1.layers[popped]?).map
      (fun l => (l.allocated, l.migrating, l.allocator.deallocations)) =
      some ([], false, 0) ∧
    (∀ p ∈ migrated, p.2.layer ≠ popped) := by
  unfold AtlasSet.migrate_reallocate at h
  by_cases hemp : task.avaliable.isEmpty
  · rw [if_pos hemp] at h
    cases hadd : s.add_empty_layer task with
    | error e =>
      rw [hadd] at h
      exact absurd (congrArg (fun t => t.1) h) (by simp)
    | ok trip =>
      obtain ⟨lid, sa, taska⟩ := trip
      rw [hadd] at h
      dsimp only at h
      obtain ⟨a1, a2, a3, a4, a5, a6, a7, a8, a9⟩ :=
        add_empty_layer_frame s task lid sa taska hadd
      have hbadlen : popped ≠ s.layers.length := by omega
      obtain ⟨p1, p2, p3, p4, p5, p6, p7⟩ :=
        migratePopAndDrain_success sa taska popped migrated s1 task2
          (by rw [a8]; exact hpop)
          (by
            rw [a9]
            intro hmem
            rcases List.mem_append.mp hmem with hm | hm
            · exact hnot hm
            · exact hbadlen (by simpa using hm))
          (by rw [a1]; simp; omega)
          h
      exact ⟨by rw [p1, a3], by rw [p2, a4], by rw [p3, a5],
        by rw [p4, a8], p5, p6, p7⟩
  · rw [if_neg hemp] at h
    exact migratePopAndDrain_success s task popped migrated s1 task2
      hpop hnot hlt h

/-- C5: a defragment call on a state holding an active migration task,
when it returns Ok, pops exactly one layer id — the last entry of the
task's migrating list — and relocates that layer's handles by replacing
only the stored Regions: the lookup table is untouched and every store
slot keeps its occupancy and its key, so each key still resolves to the
same handle id.  The drained layer ends cleared (empty tracking set,
migrating flag unset, allocator deallocation counter zero) and is
appended at the end of the task's avaliable list; the call returns
Ok(true), and the task is re-stored exactly when migrating layers
remain. -/
theorem defragment_active_task_relocates_one_layer
    (s : AtlasSet) (task : MigrationTask) (popped : Nat)
    (b : Bool) (s1 : AtlasSet)
    (hmig : s.migration = some task)
    (hpop : task.migrating.getLast? = some popped)
    (hnot : popped ∉ task.avaliable)
    (hlt : popped < s.layers.length)
    (h : s.defragment = (Except.ok b, s1)) :
    b = true ∧
    s1.lookup = s.lookup ∧
    (∀ j, (s1.store.get j).map Prod.snd = (s.store.get j).map Prod.snd) ∧
    (s1.layers[popped]?).map
      (fun l => (l.allocated, l.migrating, l.allocator.deallocations)) =
      some ([], false, 0) ∧
    (task.migrating.dropLast = [] → s1.migration = none) ∧
    (task.migrating.dropLast ≠ [] →
      ∃ t1, s1.migration = some t1 ∧ t1.migrating = task.migrating.dropLast ∧
        t1.avaliable.getLast? = some popped) := by
  unfold AtlasSet.defragment at h
  simp only [hmig] at h
  cases hmr : AtlasSet.migrate_reallocate { s with migration := none } task with
  | mk res rest =>
    obtain ⟨st1, task1⟩ := rest
    rw [hmr] at h
    cases res with
    | error e =>
      dsimp only at h
      exact absurd (congrArg (fun t => t.1) h) (by simp)
    | ok migrate =>
      dsimp only at h
      obtain ⟨p1, p2, p3, p4, p5, p6, p7⟩ :=
        migrate_reallocate_success { s with migration := none } task popped
          migrate st1 task1 hpop hnot hlt hmr
      dsimp only at p1 p2 p3
      obtain ⟨f1, f2, f3, f4, f5, f6, f7, f8⟩ := defragStoreLoop_frame migrate st1
      cases hdl : defragStoreLoop migrate st1 with
      | mk dres s2 =>
        rw [hdl] at h f1 f2 f6 f8
        dsimp only at f1 f2 f6 f8
        cases dres with
        | error e =>
          dsimp only at h
          exact absurd (congrArg (fun t => t.1) h) (by simp)
        | ok u =>
          dsimp only at h
          have hlay2 : s2.layers[popped]? = st1.layers[popped]? := f8 popped p7
          have hstore2 : ∀ j, (s2.store.get j).map Prod.snd =
              (s.store.get j).map Prod.snd := by
            intro j
            rw [f6 j, p1]
          have hlook2 : s2.lookup = s.lookup := by rw [f1, p2]
          by_cases hie : task1.migrating.isEmpty
          · rw [if_pos hie] at h
            simp only [Prod.mk.injEq, Except.ok.injEq] at h
            obtain ⟨hb, hs1⟩ := h
            subst hs1
            have hdrop : task.migrating.dropLast = [] := by
              rw [← p4]
              exact List.isEmpty_iff.mp (by simpa using hie)
            refine ⟨hb.symm, hlook2, hstore2, by rw [hlay2]; exact p6, ?_, ?_⟩
            · intro _
              rw [f2, p3]
            · intro hne
              exact absurd hdrop hne
          · rw [if_neg hie] at h
            simp only [Prod.mk.injEq, Except.ok.injEq] at h
            obtain ⟨hb, hs1⟩ := h
            subst hs1
            have hdrop : task.migrating.dropLast ≠ [] := by
              rw [← p4]
              intro hc
              exact hie (by simp [hc])
            refine ⟨hb.symm, hlook2, hstore2, by rw [hlay2]; exact p6, ?_, ?_⟩
            · intro hc
              exact absurd hc hdrop
            · intro _
              exact ⟨task1, rfl, p4, p5⟩

/-- Witness for C5 on the mid-defragmentation fixture: one call relocates
the single handle out of layer 0, returns Ok(true), drops the finished
task, leaves the lookup untouched and clears layer 0. -/
theorem defragment_active_task_relocates_one_layer_witness :
    (true : Bool) = true ∧
    (drainAtlas.defragment).2.lookup = drainAtlas.lookup ∧
    (∀ j, ((drainAtlas.defragment).2.store.get j).map Prod.snd =
       (drainAtlas.store.get j).map Prod.snd) ∧
    ((drainAtlas.defragment).2.layers[0]?).map
      (fun l => (l.allocated, l.migrating, l.allocator.deallocations)) =
      some ([], false, 0) ∧
    (([0] : List Nat).dropLast = [] → (drainAtlas.defragment).2.migration = none) ∧
    (([0] : List Nat).dropLast ≠ [] →
      ∃ t1, (drainAtlas.defragment).2.migration = some t1 ∧
        t1.migrating = ([0] : List Nat).dropLast ∧
        t1.avaliable.getLast? = some 0) :=
  defragment_active_task_relocates_one_layer drainAtlas ⟨[0], [1]⟩ 0 true
    (drainAtlas.defragment).2 rfl (by decide) (by decide) (by decide) rfl
